import Mathlib

/-!
# Attitude controller: rotation math, error model, control law, actuator mapping

Shallow embedding of `src/controller/attitude_controller.cpp` (the ROS node) and of
`simulation/src/controller/attitude_controller.cpp` (the simulation build).

* A C++ `double` is read as an element of an ordered field `α` (exact arithmetic, no
  rounding, no NaN); the functions that call `cos`, `sin`, `atan2` or `sqrt` are stated
  over `ℝ`.
* `Eigen::Vector3d` is `Fin 3 → α`, `Eigen::Matrix3d` is `Matrix (Fin 3) (Fin 3) α`,
  `Eigen::Quaterniond` is the record `Quaterniond α` with coefficients `w x y z`.
* Member functions of `AdaptiveController` take the object as an explicit state record and
  return the updated record.
-/

namespace Controller

/-! ## Eigen types and operations used by the controller -/

/-- Eigen's `Vector3d`: coefficients `v(0)`, `v(1)`, `v(2)`. -/
abbrev Vector3d (α : Type) : Type := Fin 3 → α

/-- Eigen's `Matrix3d`: coefficient `M(i,j)` is `M i j`. -/
abbrev Matrix3d (α : Type) : Type := Matrix (Fin 3) (Fin 3) α

/-- Eigen's `Quaterniond`, constructed as `Quaterniond(w, x, y, z)`. -/
structure Quaterniond (α : Type) where
  w : α
  x : α
  y : α
  z : α
deriving DecidableEq

namespace Quaterniond

variable {α : Type}

/-- Eigen's `Quaterniond::Identity()`. -/
def Identity [Zero α] [One α] : Quaterniond α := ⟨1, 0, 0, 0⟩

/-- Eigen's `q.vec()`: the vector part `(x, y, z)`. -/
def vec (q : Quaterniond α) : Vector3d α := ![q.x, q.y, q.z]

/-- Eigen's `q.conjugate()`. -/
def conjugate [Neg α] (q : Quaterniond α) : Quaterniond α := ⟨q.w, -q.x, -q.y, -q.z⟩

/-- Eigen's quaternion product `a * b` (Hamilton product). -/
def mul [Ring α] (a b : Quaterniond α) : Quaterniond α :=
  ⟨a.w * b.w - a.x * b.x - a.y * b.y - a.z * b.z,
   a.w * b.x + a.x * b.w + a.y * b.z - a.z * b.y,
   a.w * b.y + a.y * b.w + a.z * b.x - a.x * b.z,
   a.w * b.z + a.z * b.w + a.x * b.y - a.y * b.x⟩

/-- Component-wise negation `-q` (the other encoding of the same rotation). -/
def neg [Neg α] (q : Quaterniond α) : Quaterniond α := ⟨-q.w, -q.x, -q.y, -q.z⟩

/-- Eigen's `q.squaredNorm()`. -/
def squaredNorm [Ring α] (q : Quaterniond α) : α :=
  q.w * q.w + q.x * q.x + q.y * q.y + q.z * q.z

/-- Eigen's `q._transformVector(v)`: with `uv = 2 (vec × v)`, the result is
`v + w * uv + vec × uv`. -/
def _transformVector [CommRing α] (q : Quaterniond α) (v : Vector3d α) : Vector3d α :=
  let uv : Vector3d α := crossProduct q.vec v + crossProduct q.vec v
  v + q.w • uv + crossProduct q.vec uv

end Quaterniond

/-- Eigen's `q.norm()`: the square root of `q.squaredNorm()`. -/
noncomputable def Quaterniond.norm (q : Quaterniond ℝ) : ℝ := Real.sqrt q.squaredNorm

/-! ## Rotation math and saturation (`src/controller/attitude_controller.cpp`) -/

section RotationMath

variable {α : Type} [LinearOrderedField α]

/-- `AdaptiveController::saturate`: `v > max ? max : (v < min ? min : v)`. -/
def saturate (v min max : α) : α :=
  if v > max then max else (if v < min then min else v)

/-- `AdaptiveController::cross_map` (the hat map); the matrix is filled row by row. -/
def cross_map (v : Vector3d α) : Matrix3d α :=
  !![0, -v 2, v 1;
     v 2, 0, -v 0;
     -v 1, v 0, 0]

/-- `AdaptiveController::quat_plus_map`:
`q.w() >= 0 ? q : Quaterniond(-q.w(), q.x(), q.y(), q.z())`. -/
def quat_plus_map (q : Quaterniond α) : Quaterniond α :=
  if q.w ≥ 0 then q else ⟨-q.w, q.x, q.y, q.z⟩

/-- The shortest rotation in the spec's words: `q` if its scalar part is `≥ 0`, otherwise
its component-wise negation `-q`. This is the specification that `quat_plus_map` is
compared with; it is not taken from the source. -/
def shortestRotation (q : Quaterniond α) : Quaterniond α :=
  if q.w ≥ 0 then q else q.neg

end RotationMath

/-- C's `atan2(y, x)`: the angle of the point `(x, y)`, in `(-π, π]`, and `0` at the origin. -/
noncomputable def atan2 (y x : ℝ) : ℝ := Complex.arg ⟨x, y⟩

/-- C's `copysign(a, b)`: the magnitude of `a` with the sign of `b`. -/
noncomputable def copysign (a b : ℝ) : ℝ := if b < 0 then -|a| else |a|

/-- Eigen's `AngleAxis<double>`. -/
structure AngleAxis where
  angle : ℝ
  axis : Vector3d ℝ

/-- Eigen's conversion `AngleAxis<double> aa(q)`: with `n = q.vec().norm()`, if `n != 0`
the angle is `2 * atan2(n, abs(q.w()))` and the axis is `q.vec() / n`, where `n` is negated
first when `q.w() < 0`; otherwise the angle is `0` and the axis is `(1, 0, 0)`. -/
noncomputable def AngleAxis.ofQuaternion (q : Quaterniond ℝ) : AngleAxis :=
  let n : ℝ := Real.sqrt (q.x * q.x + q.y * q.y + q.z * q.z)
  if n ≠ 0 then
    { angle := 2 * atan2 n |q.w|
      axis := fun i => q.vec i / (if q.w < 0 then -n else n) }
  else
    { angle := 0
      axis := ![1, 0, 0] }

/-- Eigen's conversion `Quaterniond(aa)` back from angle and axis: `w = cos(angle / 2)`
and `vec = sin(angle / 2) * axis`. -/
noncomputable def AngleAxis.toQuaternion (aa : AngleAxis) : Quaterniond ℝ :=
  { w := Real.cos (aa.angle / 2)
    x := Real.sin (aa.angle / 2) * aa.axis 0
    y := Real.sin (aa.angle / 2) * aa.axis 1
    z := Real.sin (aa.angle / 2) * aa.axis 2 }

/-- `AdaptiveController::quat_log_v`: `(aa.angle() / 2) * aa.axis()` for `aa(q)`. -/
noncomputable def quat_log_v (q : Quaterniond ℝ) : Vector3d ℝ :=
  let aa := AngleAxis.ofQuaternion q
  (aa.angle / 2) • aa.axis

/-- `EulerToQuat(yaw, pitch, roll)`. -/
noncomputable def EulerToQuat (yaw pitch roll : ℝ) : Quaterniond ℝ :=
  let cy := Real.cos (yaw * 0.5)
  let sy := Real.sin (yaw * 0.5)
  let cp := Real.cos (pitch * 0.5)
  let sp := Real.sin (pitch * 0.5)
  let cr := Real.cos (roll * 0.5)
  let sr := Real.sin (roll * 0.5)
  { w := cr * cp * cy + sr * sp * sy
    x := sr * cp * cy - cr * sp * sy
    y := cr * sp * cy + sr * cp * sy
    z := cr * cp * sy - sr * sp * cy }

/-- `QuatToEuler(q)`: the vector `(roll, pitch, yaw)`. -/
noncomputable def QuatToEuler (q : Quaterniond ℝ) : Vector3d ℝ :=
  let sinr_cosp := 2 * (q.w * q.x + q.y * q.z)
  let cosr_cosp := 1 - 2 * (q.x * q.x + q.y * q.y)
  let sinp := 2 * (q.w * q.y - q.z * q.x)
  let siny_cosp := 2 * (q.w * q.z + q.x * q.y)
  let cosy_cosp := 1 - 2 * (q.y * q.y + q.z * q.z)
  ![atan2 sinr_cosp cosr_cosp,
    if |sinp| ≥ 1 then copysign (Real.pi / 2) sinp else Real.arcsin sinp,
    atan2 siny_cosp cosy_cosp]

/-- The controller output `input_`: thrust request `F` and torque `tau`. -/
structure Input (α : Type) where
  F : α
  tau : Vector3d α

/-! ## The ROS node (`src/controller/attitude_controller.cpp`) -/

namespace Ros

/-- The `mode` values of `rosflight_msgs::Command` named in the source. -/
inductive CommandMode where
  | MODE_PASS_THROUGH
  | MODE_ROLL_PITCH_YAWRATE_THROTTLE
deriving DecidableEq

/-- The fields of `rosflight_msgs::Command` written by `publishCommand`. -/
structure Command (α : Type) where
  mode : CommandMode
  F : α
  x : α
  y : α
  z : α

/-- Data members of the node's `AdaptiveController`. -/
structure State (α : Type) where
  k_q_ : α
  k_w_ : α
  max_thrust_ : α
  max_torque_ : α
  J_ : Matrix3d α
  q_ : Quaterniond α
  w_ : Vector3d α
  q_e_ : Quaterniond α
  w_bc_ : Vector3d α
  q_c_ : Quaterniond α
  w_c_ : Vector3d α
  w_c_dot_ : Vector3d α
  w_c_body_frame : Vector3d α
  w_c_dot_body_frame : Vector3d α
  input_ : Input α

/-- An object whose data members are all zero: a starting value for the members that
`init` leaves unassigned. -/
def blank {α : Type} [Zero α] : State α :=
  { k_q_ := 0, k_w_ := 0, max_thrust_ := 0, max_torque_ := 0, J_ := fun _ _ => 0,
    q_ := ⟨0, 0, 0, 0⟩, w_ := fun _ => 0, q_e_ := ⟨0, 0, 0, 0⟩, w_bc_ := fun _ => 0,
    q_c_ := ⟨0, 0, 0, 0⟩, w_c_ := fun _ => 0, w_c_dot_ := fun _ => 0,
    w_c_body_frame := fun _ => 0, w_c_dot_body_frame := fun _ => 0,
    input_ := ⟨0, fun _ => 0⟩ }

section Algebraic

variable {α : Type} [LinearOrderedField α]

/-- `AdaptiveController::init`; `input_` is not assigned and keeps its prior value. -/
def init (s : State α) : State α :=
  let max_rotor_thrust : α := 14.961
  let arm_length : α := 0.2
  let q_e_ : Quaterniond α := Quaterniond.Identity
  let w_c_ : Vector3d α := 0
  let w_c_dot_ : Vector3d α := 0
  { s with
    k_q_ := 30
    k_w_ := 7
    max_thrust_ := max_rotor_thrust * 4
    max_torque_ := arm_length * max_rotor_thrust * 2
    J_ := !![0.07, 0, 0;
             0, 0.08, 0;
             0, 0, 0.12]
    q_ := Quaterniond.Identity
    w_ := 0
    q_e_ := q_e_
    w_bc_ := 0
    q_c_ := Quaterniond.Identity
    w_c_ := w_c_
    w_c_dot_ := w_c_dot_
    w_c_body_frame := q_e_.conjugate._transformVector w_c_
    w_c_dot_body_frame := q_e_.conjugate._transformVector w_c_dot_ }

/-- `AdaptiveController::calculateErrors`. -/
def calculateErrors (s : State α) : State α :=
  let q_e_ := s.q_c_.conjugate.mul s.q_
  { s with
    q_e_ := q_e_
    w_bc_ := s.w_ - q_e_.conjugate._transformVector s.w_c_ }

/-- `AdaptiveController::publishCommand`: the message handed to the publisher. -/
def publishCommand (s : State α) : Command α :=
  { mode := CommandMode.MODE_PASS_THROUGH
    F := saturate (s.input_.F / s.max_thrust_) 0 1
    x := saturate (s.input_.tau 0 / s.max_torque_) (-1) 1
    y := saturate (s.input_.tau 1 / s.max_torque_) (-1) 1
    z := saturate (s.input_.tau 2 / 3) (-1) 1 }

/-- `AdaptiveController::vee_map`: returns the vector and the object after the call
(the body assigns `k_q_ = 1.0`). -/
def vee_map (s : State α) (v_hat : Matrix3d α) : Vector3d α × State α :=
  (![v_hat 2 1, v_hat 0 2, v_hat 0 1], { s with k_q_ := 1.0 })

end Algebraic

/-- The node after `init` with thrust request `100` and torque `(10, -10, 1)` stored in
`input_`. -/
def saturatedExample : State ℚ :=
  { init blank with input_ := ⟨100, ![10, -10, 1]⟩ }

/-- `AdaptiveController::computeInput` (the printing to `std::cout` is left out). -/
noncomputable def computeInput (s : State ℝ) : State ℝ :=
  let cancellation_terms : Vector3d ℝ :=
    (cross_map s.w_ * s.J_).mulVec s.w_
      + s.J_.mulVec (s.w_c_dot_body_frame + (cross_map s.w_).mulVec s.w_c_body_frame)
  let feedforward_terms : Vector3d ℝ :=
    s.J_.mulVec (-s.k_q_ • quat_log_v (quat_plus_map s.q_e_) - s.k_w_ • s.w_bc_)
  { s with input_ := { s.input_ with tau := cancellation_terms + feedforward_terms } }

/-- `AdaptiveController::odomCallback` for a message carrying attitude `q` and angular
velocity `w`: the object after the call and the command published. -/
noncomputable def odomCallback (s : State ℝ) (q : Quaterniond ℝ) (w : Vector3d ℝ) :
    State ℝ × Command ℝ :=
  let s1 := computeInput (calculateErrors { s with q_ := q, w_ := w })
  (s1, publishCommand s1)

/-- `AdaptiveController::commandCallback` for a message with fields `F`, `x`, `y`, `z`. -/
noncomputable def commandCallback (s : State ℝ) (F x y z : ℝ) : State ℝ :=
  { s with
    input_ := { s.input_ with F := F }
    q_c_ := EulerToQuat z y x }

/-- The node after `init`, a `commandCallback` carrying the thrust request `F` and a level
target (`x = y = z = 0`), and `n` calls of `odomCallback` with the vehicle at rest and
level (`q = identity`, `w = 0`). -/
noncomputable def restCycles (s : State ℝ) (F : ℝ) (n : ℕ) : State ℝ :=
  (fun s1 => (odomCallback s1 Quaterniond.Identity 0).1)^[n] (commandCallback (init s) F 0 0 0)

end Ros

/-! ## The simulation build (`simulation/src/controller/attitude_controller.cpp`) -/

namespace Sim

/-- Data members of the simulation's `AdaptiveController`; the diagonal matrices
`Lambda_hat_` and `Theta_hat_` are held by their diagonals. -/
structure State (α : Type) where
  J_nominal_ : Matrix3d α
  time_step_ : α
  cmd_w_0_ : α
  cmd_damping_ : α
  k_q_ : α
  k_w_ : α
  Lambda_hat_ : Vector3d α
  Theta_hat_ : Vector3d α
  Phi : Vector3d α
  tau_dist_hat_ : Vector3d α
  t_ : α
  q_ : Quaterniond α
  w_ : Vector3d α
  q_e_ : Quaterniond α
  w_bc_ : Vector3d α
  q_c_ : Quaterniond α
  w_c_ : Vector3d α
  w_c_dot_ : Vector3d α
  w_c_body_frame : Vector3d α
  w_c_dot_body_frame : Vector3d α
  q_r_ : Quaterniond α
  input_ : Input α

/-- An object whose data members are all zero: a starting value for the members that
`init` leaves unassigned. -/
def blank {α : Type} [Zero α] : State α :=
  { J_nominal_ := fun _ _ => 0, time_step_ := 0, cmd_w_0_ := 0, cmd_damping_ := 0,
    k_q_ := 0, k_w_ := 0, Lambda_hat_ := fun _ => 0, Theta_hat_ := fun _ => 0,
    Phi := fun _ => 0, tau_dist_hat_ := fun _ => 0, t_ := 0,
    q_ := ⟨0, 0, 0, 0⟩, w_ := fun _ => 0, q_e_ := ⟨0, 0, 0, 0⟩, w_bc_ := fun _ => 0,
    q_c_ := ⟨0, 0, 0, 0⟩, w_c_ := fun _ => 0, w_c_dot_ := fun _ => 0,
    w_c_body_frame := fun _ => 0, w_c_dot_body_frame := fun _ => 0,
    q_r_ := ⟨0, 0, 0, 0⟩, input_ := ⟨0, fun _ => 0⟩ }

/-- `AdaptiveController::saturate` of the simulation build (same body as the node's). -/
def saturate {α : Type} [LinearOrderedField α] (v min max : α) : α :=
  if v > max then max else (if v < min then min else v)

/-- `AdaptiveController::calculateErrors`. -/
def calculateErrors {α : Type} [LinearOrderedField α] (s : State α) : State α :=
  let q_e_ := s.q_c_.conjugate.mul s.q_
  { s with
    q_e_ := q_e_
    w_bc_ := s.w_ - q_e_.conjugate._transformVector s.w_c_ }

/-- An object that tracks its command exactly: `q_ = q_c_ = (3/5, 4/5, 0, 0)` (a unit
quaternion) and `w_ = w_c_ = (1, 2, 3)`. -/
def trackingExample : State ℚ :=
  { blank with
    q_c_ := ⟨3/5, 4/5, 0, 0⟩
    q_ := ⟨3/5, 4/5, 0, 0⟩
    w_c_ := ![1, 2, 3]
    w_ := ![1, 2, 3] }

/-- `AdaptiveController::setRefSignal`. -/
def setRefSignal {α : Type} (s : State α) (q_ref : Quaterniond α) : State α :=
  { s with q_r_ := q_ref }

/-- `AdaptiveController::getInputTorques`. -/
def getInputTorques {α : Type} (s : State α) : Vector3d α := s.input_.tau

/-- `AdaptiveController::getCmdSignal`. -/
def getCmdSignal {α : Type} (s : State α) : Quaterniond α := s.q_c_

/-- `AdaptiveController::init`; `t_` and `input_` are not assigned and keep their prior
values. -/
noncomputable def init (s : State ℝ) : State ℝ :=
  let est_errors : Matrix3d ℝ :=
    !![0.02, 0, 0;
       0, 0.015, 0;
       0, 0, 0.03]
  let J_nominal_ : Matrix3d ℝ :=
    !![0.07, 0, 0;
       0, 0.08, 0;
       0, 0, 0.12]
  { s with
    J_nominal_ := J_nominal_ + est_errors
    time_step_ := (10 : ℝ) ^ (-3 : ℤ)
    cmd_w_0_ := 30.0
    cmd_damping_ := 1.0
    k_q_ := 1.0
    k_w_ := 1.0
    Lambda_hat_ := ![0, 0, 0]
    Theta_hat_ := ![0, 0, 0]
    Phi := ![0, 0, 0]
    tau_dist_hat_ := ![0, 0, 0]
    q_ := Quaterniond.Identity
    w_ := 0
    q_e_ := Quaterniond.Identity
    w_bc_ := 0
    q_c_ := Quaterniond.Identity
    w_c_ := 0
    w_c_dot_ := 0
    w_c_body_frame := 0
    w_c_dot_body_frame := 0
    q_r_ := EulerToQuat 0 0 0 }

/-- `AdaptiveController::generateCommandSignal`. -/
noncomputable def generateCommandSignal (s : State ℝ) : State ℝ :=
  let q_rc := s.q_r_.conjugate.mul s.q_c_
  let w_c_quat : Quaterniond ℝ :=
    { w := 0, x := ((0.5 : ℝ) • s.w_c_) 0, y := ((0.5 : ℝ) • s.w_c_) 1, z := ((0.5 : ℝ) • s.w_c_) 2 }
  let q_c_dot := s.q_c_.mul w_c_quat
  let w_c_dot_ : Vector3d ℝ :=
    (-2 * s.cmd_w_0_ ^ 2) • quat_log_v (quat_plus_map q_rc)
      - (2 * s.cmd_damping_ * s.cmd_w_0_) • s.w_c_
  let q_c_w := s.q_c_.w + s.time_step_ * q_c_dot.w
  let q_c_vec : Vector3d ℝ := s.q_c_.vec + s.time_step_ • q_c_dot.vec
  let w_c_ : Vector3d ℝ := s.w_c_ + s.time_step_ • w_c_dot_
  { s with
    w_c_dot_ := w_c_dot_
    q_c_ := { w := q_c_w, x := q_c_vec 0, y := q_c_vec 1, z := q_c_vec 2 }
    w_c_ := w_c_
    w_c_body_frame := s.q_e_.conjugate._transformVector w_c_
    w_c_dot_body_frame := s.q_e_.conjugate._transformVector w_c_dot_ }

/-- The simulation object after `init`, then `setRefSignal` with the half turn about the
x axis `(0, 1, 0, 0)`, then one `generateCommandSignal` step. -/
noncomputable def halfTurnExample : State ℝ :=
  generateCommandSignal (setRefSignal (init blank) ⟨0, 1, 0, 0⟩)

/-- `AdaptiveController::computeInput`. -/
noncomputable def computeInput (s : State ℝ) : State ℝ :=
  let cancellation_terms : Vector3d ℝ :=
    (cross_map s.w_ * s.J_nominal_).mulVec s.w_
      + s.J_nominal_.mulVec
          (s.w_c_dot_body_frame + (cross_map s.w_).mulVec s.w_c_body_frame)
  let feedforward_terms : Vector3d ℝ :=
    s.J_nominal_.mulVec (-s.k_q_ • quat_log_v (quat_plus_map s.q_e_) - s.k_w_ • s.w_bc_)
  { s with input_ := { s.input_ with tau := cancellation_terms + feedforward_terms } }

/-- `AdaptiveController::controllerCallback`. -/
noncomputable def controllerCallback (s : State ℝ) (q : Quaterniond ℝ) (w : Vector3d ℝ)
    (t : ℝ) : State ℝ :=
  computeInput (calculateErrors (generateCommandSignal { s with t_ := t, q_ := q, w_ := w }))

/-- The simulation object after `init`, then `setRefSignal` with the half turn about the
x axis `(0, 1, 0, 0)`, then one `controllerCallback` fed the half turn about the z axis
`q = (0, 0, 0, 1)` with `w = 0` at `t = 0`. -/
noncomputable def staleFrameExample : State ℝ :=
  controllerCallback (setRefSignal (init blank) ⟨0, 1, 0, 0⟩) ⟨0, 0, 0, 1⟩ 0 0

/-- The simulation object after `init` and `setRefSignal` with the unit quaternion
`(-3/5, -4/5, 0, 0)`, for which `conj(q_r_) * q_c_ = (-3/5, 4/5, 0, 0)` has a negative
scalar part. -/
noncomputable def longWayExample : State ℝ :=
  setRefSignal (init blank) ⟨-3/5, -4/5, 0, 0⟩

/-- The simulation object after `init` with reference and command both set to the unit
quaternion `(3/5, 4/5, 0, 0)`. -/
noncomputable def onTargetExample : State ℝ :=
  { init blank with q_r_ := ⟨3/5, 4/5, 0, 0⟩, q_c_ := ⟨3/5, 4/5, 0, 0⟩ }

/-- The orientation error the command generator acts on: the rotation angle Eigen
extracts from `quat_plus_map (conj(q_r_) * q_c_)`, in radians. -/
noncomputable def orientationError (s : State ℝ) : ℝ :=
  (AngleAxis.ofQuaternion (quat_plus_map (s.q_r_.conjugate.mul s.q_c_))).angle

/-- The convergence scenario: `init` (bandwidth `30`, damping `1`, step `0.001`, command
at identity with zero velocity), `setRefSignal` with a 30 degree yaw rotation, then `n`
steps of `generateCommandSignal`. -/
noncomputable def yawScenario (n : ℕ) : State ℝ :=
  generateCommandSignal^[n] (setRefSignal (init blank) (EulerToQuat (Real.pi / 6) 0 0))

/-- The scenario in angle coordinates: the pair (yaw error `d`, yaw rate `ω`) starts at
`(π/6, 0)` and one step maps it to `(d - 2 arctan (ω / 2000), 0.94 ω + 0.9 d)`. -/
noncomputable def yawSeq : ℕ → ℝ × ℝ
  | 0 => (Real.pi / 6, 0)
  | n + 1 =>
    ((yawSeq n).1 - 2 * Real.arctan ((yawSeq n).2 / 2000),
      0.94 * (yawSeq n).2 + 0.9 * (yawSeq n).1)

/-- An object of the convergence scenario in polar form: the scenario's parameters and
reference, the command `q_c_ = ρ (cos ψ, 0, 0, sin ψ)` with `ψ = π/12 - d/2`, and the
command velocity `(0, 0, ω)`. -/
structure YawState (s : State ℝ) (ρ d ω : ℝ) : Prop where
  time_step : s.time_step_ = 1 / 1000
  w_0 : s.cmd_w_0_ = 30
  damping : s.cmd_damping_ = 1
  q_r : s.q_r_ = ⟨Real.cos (Real.pi / 12), 0, 0, Real.sin (Real.pi / 12)⟩
  q_c : s.q_c_
    = ⟨ρ * Real.cos (Real.pi / 12 - d / 2), 0, 0, ρ * Real.sin (Real.pi / 12 - d / 2)⟩
  w_c : s.w_c_ = ![0, 0, ω]

/-- The simulation object after `init` and one `controllerCallback` per timestamp of
`ts`, each fed the measurement at rest and level (`q = identity`, `w = 0`). -/
noncomputable def restCycles (s : State ℝ) (ts : List ℝ) : State ℝ :=
  ts.foldl (fun s1 t => controllerCallback s1 Quaterniond.Identity 0 t) (init s)

end Sim

/-! ## Rotation math: shortest rotation, hat and vee -/

section RotationMathTheorems

variable {α : Type} [LinearOrderedField α]

theorem quat_plus_map_of_nonneg (q : Quaterniond α) (h : 0 ≤ q.w) : quat_plus_map q = q := by
  simp [quat_plus_map, h]

theorem quat_plus_map_of_neg (q : Quaterniond α) (h : q.w < 0) :
    quat_plus_map q = ⟨-q.w, q.x, q.y, q.z⟩ := by
  simp [quat_plus_map, not_le.mpr h]

/-- C1, evaluated on the unit quaternion `q = (-3/5, 4/5, 0, 0)`: `quat_plus_map` returns
`(3/5, 4/5, 0, 0)`, which is neither `q` nor its component-wise negation
`(3/5, -4/5, 0, 0)`; only the scalar part has been negated. -/
theorem quat_plus_map_negates_only_w :
    quat_plus_map (⟨-3/5, 4/5, 0, 0⟩ : Quaterniond ℚ) = ⟨3/5, 4/5, 0, 0⟩ ∧
    quat_plus_map (⟨-3/5, 4/5, 0, 0⟩ : Quaterniond ℚ) ≠ ⟨-3/5, 4/5, 0, 0⟩ ∧
    quat_plus_map (⟨-3/5, 4/5, 0, 0⟩ : Quaterniond ℚ)
      ≠ Quaterniond.neg ⟨-3/5, 4/5, 0, 0⟩ := by
  refine ⟨?_, ?_, ?_⟩ <;> norm_num [quat_plus_map, Quaterniond.neg]

/-- C2: for every quaternion `q`, the scalar part of `quat_plus_map q` is non-negative. -/
theorem quat_plus_map_w_nonneg (q : Quaterniond α) : 0 ≤ (quat_plus_map q).w := by
  unfold quat_plus_map
  split_ifs with h
  · exact h
  · exact neg_nonneg.mpr (le_of_lt (not_le.mp h))

theorem vee_map_cross_map (s : Ros.State α) (v : Vector3d α) :
    (Ros.vee_map s (cross_map v)).1 = ![v 0, v 1, -v 2] := by
  simp [Ros.vee_map, cross_map, Matrix.vecHead, Matrix.vecTail]

/-- C3, evaluated on `v = (0, 0, 1)`: `vee_map (cross_map v)` is `(0, 0, -1)`, not `v`; the
third component is read from entry `(0,1)` of the matrix, which holds `-v(2)`. -/
theorem vee_map_cross_map_e3 (s : Ros.State ℚ) :
    (Ros.vee_map s (cross_map ![0, 0, 1])).1 = ![0, 0, -1] ∧
    (Ros.vee_map s (cross_map ![0, 0, 1])).1 ≠ ![0, 0, 1] := by
  constructor
  · simp [Ros.vee_map, cross_map, Matrix.vecHead, Matrix.vecTail]
  · intro h
    have h2 := congrFun h 2
    simp [Ros.vee_map, cross_map, Matrix.vecHead, Matrix.vecTail] at h2
    norm_num at h2

/-- C4: for every 3-vector `v`, `cross_map v` plus its transpose is the zero matrix, and
for every 3-vector `x` the product `cross_map v * x` is the cross product `v × x`. -/
theorem cross_map_skew_and_cross (v : Vector3d α) :
    cross_map v + (cross_map v).transpose = 0 ∧
    ∀ x : Vector3d α, (cross_map v).mulVec x = crossProduct v x := by
  constructor
  · ext i j
    fin_cases i <;> fin_cases j <;>
      simp [cross_map, Matrix.transpose_apply, Matrix.vecHead, Matrix.vecTail]
  · intro x
    ext i
    fin_cases i <;>
      simp [cross_map, Matrix.mulVec, Matrix.dotProduct, Fin.sum_univ_three, crossProduct] <;>
      ring

end RotationMathTheorems

/-! ## Actuator mapping: saturation and the published command -/

section ActuatorMapping

variable {α : Type} [LinearOrderedField α]

theorem saturate_eq_sim (v lo hi : α) : Sim.saturate v lo hi = saturate v lo hi := rfl

theorem saturate_mem (v lo hi : α) (h : lo ≤ hi) :
    lo ≤ saturate v lo hi ∧ saturate v lo hi ≤ hi := by
  unfold saturate
  split_ifs with h1 h2
  · exact ⟨h, le_refl _⟩
  · exact ⟨le_refl _, h⟩
  · exact ⟨not_lt.mp h2, not_lt.mp h1⟩

/-- C5: in every object whose `max_thrust_` and `max_torque_` are non-zero (as `init` sets
them), for every stored thrust request `input_.F` and torque `input_.tau` the published
command has `F = saturate (F / max_thrust_) 0 1`, `x` and `y` equal to
`saturate (tau_i / max_torque_) (-1) 1`, `z = saturate (tau_2 / 3) (-1) 1`, and so
`F` lies in `[0, 1]` and `x`, `y`, `z` lie in `[-1, 1]`. -/
theorem publishCommand_normalized (s : Ros.State α)
    (_hF : s.max_thrust_ ≠ 0) (_hT : s.max_torque_ ≠ 0) :
    ((Ros.publishCommand s).F = saturate (s.input_.F / s.max_thrust_) 0 1 ∧
     (Ros.publishCommand s).x = saturate (s.input_.tau 0 / s.max_torque_) (-1) 1 ∧
     (Ros.publishCommand s).y = saturate (s.input_.tau 1 / s.max_torque_) (-1) 1 ∧
     (Ros.publishCommand s).z = saturate (s.input_.tau 2 / 3) (-1) 1) ∧
    (0 ≤ (Ros.publishCommand s).F ∧ (Ros.publishCommand s).F ≤ 1) ∧
    (-1 ≤ (Ros.publishCommand s).x ∧ (Ros.publishCommand s).x ≤ 1) ∧
    (-1 ≤ (Ros.publishCommand s).y ∧ (Ros.publishCommand s).y ≤ 1) ∧
    (-1 ≤ (Ros.publishCommand s).z ∧ (Ros.publishCommand s).z ≤ 1) := by
  have h01 : (0 : α) ≤ 1 := zero_le_one
  have h11 : (-1 : α) ≤ 1 := by linarith
  exact ⟨⟨rfl, rfl, rfl, rfl⟩, saturate_mem _ _ _ h01, saturate_mem _ _ _ h11,
    saturate_mem _ _ _ h11, saturate_mem _ _ _ h11⟩

/-- C6 as stated fails when the bounds are inverted: with `v = 1/2`, `lo = 1`, `hi = 0`
we have `v ≤ lo`, yet `saturate` (in both builds) returns `hi = 0`, not `lo`. -/
theorem saturate_inverted_bounds :
    (1/2 : ℚ) ≤ 1 ∧ saturate (1/2 : ℚ) 1 0 = 0 ∧ saturate (1/2 : ℚ) 1 0 ≠ 1 ∧
    Sim.saturate (1/2 : ℚ) 1 0 = 0 ∧ Sim.saturate (1/2 : ℚ) 1 0 ≠ 1 := by
  refine ⟨?_, ?_, ?_, ?_, ?_⟩ <;> norm_num [saturate, Sim.saturate]

/-- C6, amended: for every `v` and every `lo ≤ hi`, `saturate v lo hi` (in both builds)
is `lo` when `v ≤ lo`, is `hi` when `v ≥ hi`, and is `v` when `lo < v < hi`. -/
theorem saturate_cases (v lo hi : α) (h : lo ≤ hi) :
    ((v ≤ lo → saturate v lo hi = lo) ∧ (v ≥ hi → saturate v lo hi = hi) ∧
      (lo < v ∧ v < hi → saturate v lo hi = v)) ∧
    ((v ≤ lo → Sim.saturate v lo hi = lo) ∧ (v ≥ hi → Sim.saturate v lo hi = hi) ∧
      (lo < v ∧ v < hi → Sim.saturate v lo hi = v)) := by
  have key : (v ≤ lo → saturate v lo hi = lo) ∧ (v ≥ hi → saturate v lo hi = hi) ∧
      (lo < v ∧ v < hi → saturate v lo hi = v) := by
    refine ⟨fun h1 => ?_, fun h1 => ?_, fun h1 => ?_⟩
    · unfold saturate
      rw [if_neg (not_lt.mpr (le_trans h1 h))]
      split_ifs with h2
      · rfl
      · exact le_antisymm h1 (not_lt.mp h2)
    · unfold saturate
      split_ifs with h2 h3
      · rfl
      · exact absurd (lt_of_lt_of_le h3 h) (not_lt.mpr h1)
      · exact le_antisymm (not_lt.mp h2) h1
    · unfold saturate
      rw [if_neg (not_lt.mpr (le_of_lt h1.2)), if_neg (not_lt.mpr (le_of_lt h1.1))]
  exact ⟨key, by simpa only [saturate_eq_sim] using key⟩

end ActuatorMapping

/-- Witness for C5: the node after `init` with thrust request `100` and torque
`(10, -10, 1)`; thrust saturates at `1` and the yaw command is `1/3`. -/
theorem publishCommand_normalized_witness :
    Ros.saturatedExample.max_thrust_ ≠ 0 ∧ Ros.saturatedExample.max_torque_ ≠ 0 ∧
    (Ros.publishCommand Ros.saturatedExample).F = 1 ∧
    (Ros.publishCommand Ros.saturatedExample).z = 1/3 ∧
    (-1 ≤ (Ros.publishCommand Ros.saturatedExample).z ∧
      (Ros.publishCommand Ros.saturatedExample).z ≤ 1) := by
  refine ⟨?_, ?_, ?_, ?_, ?_⟩
  · norm_num [Ros.saturatedExample, Ros.init]
  · norm_num [Ros.saturatedExample, Ros.init]
  · norm_num [Ros.publishCommand, Ros.saturatedExample, Ros.init, saturate]
  · norm_num [Ros.publishCommand, Ros.saturatedExample, Ros.init, saturate]
  · exact (publishCommand_normalized Ros.saturatedExample
      (by norm_num [Ros.saturatedExample, Ros.init])
      (by norm_num [Ros.saturatedExample, Ros.init])).2.2.2.2

/-- Witness for C6 (amended): the thrust range `[0, 1]` at `v = 2`. -/
theorem saturate_cases_witness :
    (0 : ℚ) ≤ 1 ∧ saturate (2 : ℚ) 0 1 = 1 :=
  ⟨by norm_num, (saturate_cases (2 : ℚ) 0 1 (by norm_num)).1.2.1 (by norm_num)⟩

/-! ## Control law and error model -/

theorem quat_log_v_Identity : quat_log_v Quaterniond.Identity = 0 := by
  simp [quat_log_v, AngleAxis.ofQuaternion, Quaterniond.Identity]

theorem cross_map_zero {α : Type} [LinearOrderedField α] :
    cross_map (0 : Vector3d α) = 0 := by
  ext i j
  fin_cases i <;> fin_cases j <;> simp [cross_map, Matrix.vecHead, Matrix.vecTail]

/-- C7: for every object of the simulation build (so every inertia matrix `J_nominal_`
and all gains `k_q_`, `k_w_`), if `w_ = 0`, `w_c_body_frame = 0`,
`w_c_dot_body_frame = 0`, `w_bc_ = 0` and `q_e_` is the identity quaternion, then the
torque stored by `computeInput` is the zero vector. -/
theorem computeInput_zero_point (s : Sim.State ℝ)
    (hw : s.w_ = 0) (hwc : s.w_c_body_frame = 0) (hwcd : s.w_c_dot_body_frame = 0)
    (hwbc : s.w_bc_ = 0) (hqe : s.q_e_ = Quaterniond.Identity) :
    (Sim.computeInput s).input_.tau = 0 := by
  have hplus : quat_plus_map (Quaterniond.Identity : Quaterniond ℝ) = Quaterniond.Identity :=
    quat_plus_map_of_nonneg _ (by simp [Quaterniond.Identity])
  simp [Sim.computeInput, hw, hwc, hwcd, hwbc, hqe, hplus, quat_log_v_Identity,
    cross_map_zero]

/-- Witness for C7: the simulation object right after `init` (inertia
`diag(0.09, 0.095, 0.15)`, gains `1`). -/
theorem computeInput_zero_point_witness :
    (Sim.init Sim.blank).w_ = 0 ∧ (Sim.init Sim.blank).q_e_ = Quaterniond.Identity ∧
    (Sim.computeInput (Sim.init Sim.blank)).input_.tau = 0 :=
  ⟨rfl, rfl, computeInput_zero_point (Sim.init Sim.blank) rfl rfl rfl rfl rfl⟩

section ErrorModel

variable {α : Type} [LinearOrderedField α]

theorem conjugate_mul_self (q : Quaterniond α) (h : q.squaredNorm = 1) :
    q.conjugate.mul q = Quaterniond.Identity := by
  simp only [Quaterniond.squaredNorm] at h
  simp only [Quaterniond.conjugate, Quaterniond.mul, Quaterniond.Identity,
    Quaterniond.mk.injEq]
  refine ⟨?_, ?_, ?_, ?_⟩
  · linear_combination h
  · ring
  · ring
  · ring

/-- C8: in both builds, for every object whose command orientation `q_c_` is a unit
quaternion (any `w_c_`), if the measured orientation `q_` equals `q_c_` and the measured
velocity `w_` equals `w_c_` transformed by the conjugate of the error quaternion
`conj(q_c_) * q_`, then `calculateErrors` stores `q_e_ = (1, 0, 0, 0)` and `w_bc_ = 0`. -/
theorem calculateErrors_identity :
    (∀ s : Sim.State α, s.q_c_.squaredNorm = 1 → s.q_ = s.q_c_ →
      s.w_ = (s.q_c_.conjugate.mul s.q_).conjugate._transformVector s.w_c_ →
      (Sim.calculateErrors s).q_e_ = ⟨1, 0, 0, 0⟩ ∧ (Sim.calculateErrors s).w_bc_ = 0) ∧
    (∀ s : Ros.State α, s.q_c_.squaredNorm = 1 → s.q_ = s.q_c_ →
      s.w_ = (s.q_c_.conjugate.mul s.q_).conjugate._transformVector s.w_c_ →
      (Ros.calculateErrors s).q_e_ = ⟨1, 0, 0, 0⟩ ∧ (Ros.calculateErrors s).w_bc_ = 0) := by
  constructor
  · intro s hunit hq hw
    constructor
    · show s.q_c_.conjugate.mul s.q_ = ⟨1, 0, 0, 0⟩
      rw [hq]
      exact conjugate_mul_self _ hunit
    · show s.w_ - (s.q_c_.conjugate.mul s.q_).conjugate._transformVector s.w_c_ = 0
      rw [sub_eq_zero]
      exact hw
  · intro s hunit hq hw
    constructor
    · show s.q_c_.conjugate.mul s.q_ = ⟨1, 0, 0, 0⟩
      rw [hq]
      exact conjugate_mul_self _ hunit
    · show s.w_ - (s.q_c_.conjugate.mul s.q_).conjugate._transformVector s.w_c_ = 0
      rw [sub_eq_zero]
      exact hw

end ErrorModel

theorem trackingExample_transform :
    Sim.trackingExample.w_ =
      (Sim.trackingExample.q_c_.conjugate.mul Sim.trackingExample.q_).conjugate._transformVector
        Sim.trackingExample.w_c_ := by
  ext i
  fin_cases i <;>
    norm_num [Sim.trackingExample, Sim.blank, Quaterniond._transformVector,
      Quaterniond.conjugate, Quaterniond.mul, Quaterniond.vec, crossProduct,
      Matrix.vecHead, Matrix.vecTail]

/-- Witness for C8: `q_ = q_c_ = (3/5, 4/5, 0, 0)` and `w_ = w_c_ = (1, 2, 3)`. -/
theorem calculateErrors_identity_witness :
    Sim.trackingExample.q_c_.squaredNorm = 1 ∧
    Sim.trackingExample.q_ = Sim.trackingExample.q_c_ ∧
    (Sim.calculateErrors Sim.trackingExample).q_e_ = ⟨1, 0, 0, 0⟩ ∧
    (Sim.calculateErrors Sim.trackingExample).w_bc_ = 0 :=
  ⟨by norm_num [Sim.trackingExample, Quaterniond.squaredNorm], rfl,
    calculateErrors_identity.1 Sim.trackingExample
      (by norm_num [Sim.trackingExample, Quaterniond.squaredNorm]) rfl
      trackingExample_transform⟩

/-! ## Command generator: norm of the command orientation -/

theorem norm_eq_one_iff (q : Quaterniond ℝ) : q.norm = 1 ↔ q.squaredNorm = 1 := by
  unfold Quaterniond.norm
  exact Real.sqrt_eq_one

/-- One step multiplies the squared norm of `q_c_` by `1 + h^2 * |w_c_|^2 / 4`. -/
theorem generateCommandSignal_squaredNorm (s : Sim.State ℝ) :
    (Sim.generateCommandSignal s).q_c_.squaredNorm =
      s.q_c_.squaredNorm *
        (1 + s.time_step_ ^ 2 * (s.w_c_ 0 ^ 2 + s.w_c_ 1 ^ 2 + s.w_c_ 2 ^ 2) / 4) := by
  simp only [Sim.generateCommandSignal, Quaterniond.squaredNorm, Quaterniond.mul,
    Quaterniond.vec, Pi.add_apply, Pi.smul_apply, smul_eq_mul, Matrix.cons_val_zero,
    Matrix.cons_val_one, Matrix.cons_val_two, Matrix.head_cons, Matrix.tail_cons]
  norm_num
  ring

theorem vector3d_eq_zero_iff (v : Vector3d ℝ) :
    v = 0 ↔ v 0 ^ 2 + v 1 ^ 2 + v 2 ^ 2 = 0 := by
  constructor
  · intro h
    simp [h]
  · intro h
    have h0 : v 0 = 0 := by nlinarith [sq_nonneg (v 0), sq_nonneg (v 1), sq_nonneg (v 2)]
    have h1 : v 1 = 0 := by nlinarith [sq_nonneg (v 0), sq_nonneg (v 1), sq_nonneg (v 2)]
    have h2 : v 2 = 0 := by nlinarith [sq_nonneg (v 0), sq_nonneg (v 1), sq_nonneg (v 2)]
    ext i
    fin_cases i
    · exact h0
    · exact h1
    · exact h2

theorem generateCommandSignal_unit_iff (s : Sim.State ℝ) (h : s.q_c_.squaredNorm = 1) :
    (Sim.generateCommandSignal s).q_c_.squaredNorm = 1 ↔ (s.time_step_ = 0 ∨ s.w_c_ = 0) := by
  rw [generateCommandSignal_squaredNorm, h, vector3d_eq_zero_iff]
  constructor
  · intro h1
    have h2 : s.time_step_ ^ 2 * (s.w_c_ 0 ^ 2 + s.w_c_ 1 ^ 2 + s.w_c_ 2 ^ 2) = 0 := by
      linarith
    rcases mul_eq_zero.mp h2 with h3 | h3
    · exact Or.inl ((pow_eq_zero_iff two_ne_zero).mp h3)
    · exact Or.inr h3
  · rintro (h1 | h1)
    · rw [h1]
      ring
    · rw [h1]
      ring

theorem atan2_one_zero : atan2 1 0 = Real.pi / 2 := by
  show Complex.arg Complex.I = Real.pi / 2
  exact Complex.arg_I

theorem quat_log_v_half_turn :
    quat_log_v ⟨0, -1, 0, 0⟩ = ![-(Real.pi / 2), 0, 0] := by
  ext i
  fin_cases i <;>
    simp [quat_log_v, AngleAxis.ofQuaternion, Quaterniond.vec, atan2_one_zero]

theorem halfTurnExample_q_c : Sim.halfTurnExample.q_c_ = Quaterniond.Identity := by
  simp [Sim.halfTurnExample, Sim.generateCommandSignal, Sim.setRefSignal, Sim.init,
    Quaterniond.mul, Quaterniond.vec, Quaterniond.Identity]

theorem halfTurnExample_w_c : Sim.halfTurnExample.w_c_ 0 = 9 / 10 * Real.pi := by
  have hq : (Quaterniond.conjugate (⟨0, 1, 0, 0⟩ : Quaterniond ℝ)).mul Quaterniond.Identity
      = ⟨0, -1, 0, 0⟩ := by
    simp [Quaterniond.conjugate, Quaterniond.mul, Quaterniond.Identity]
  have hp : quat_plus_map (⟨0, -1, 0, 0⟩ : Quaterniond ℝ) = ⟨0, -1, 0, 0⟩ :=
    quat_plus_map_of_nonneg _ (le_refl _)
  simp [Sim.halfTurnExample, Sim.generateCommandSignal, Sim.setRefSignal, Sim.init, hq, hp,
    quat_log_v_half_turn]
  norm_num
  ring

/-- C9 as stated fails on a state reached from `init`: after `setRefSignal` with the half
turn `(0, 1, 0, 0)` and one step, `q_c_` has norm `1` and `w_c_` is `(0.9 π, 0, 0)`; the
next `generateCommandSignal` step leaves `q_c_` with a norm different from `1`. -/
theorem generateCommandSignal_norm_drift :
    Sim.halfTurnExample.q_c_.norm = 1 ∧
    (Sim.generateCommandSignal Sim.halfTurnExample).q_c_.norm ≠ 1 := by
  have hunit : Sim.halfTurnExample.q_c_.squaredNorm = 1 := by
    rw [halfTurnExample_q_c]
    norm_num [Quaterniond.squaredNorm, Quaterniond.Identity]
  refine ⟨(norm_eq_one_iff _).mpr hunit, ?_⟩
  intro h
  rcases (generateCommandSignal_unit_iff _ hunit).mp ((norm_eq_one_iff _).mp h) with h1 | h1
  · have h2 : Sim.halfTurnExample.time_step_ = (10 : ℝ) ^ (-3 : ℤ) := rfl
    rw [h2] at h1
    norm_num at h1
  · have h2 := congrFun h1 0
    rw [halfTurnExample_w_c] at h2
    have h3 := Real.pi_pos
    simp at h2
    linarith

/-- C9, amended: for every object of the simulation build with `‖q_c_‖ = 1` (any `w_c_`,
any `q_r_`), after one `generateCommandSignal` step the updated `q_c_` has norm exactly
`1` if and only if the step `time_step_` is zero or the pre-step command velocity `w_c_` is
the zero vector. -/
theorem generateCommandSignal_norm_one_iff (s : Sim.State ℝ) (h : s.q_c_.norm = 1) :
    (Sim.generateCommandSignal s).q_c_.norm = 1 ↔ (s.time_step_ = 0 ∨ s.w_c_ = 0) := by
  rw [norm_eq_one_iff]
  exact generateCommandSignal_unit_iff s ((norm_eq_one_iff _).mp h)

/-- Witness for C9 (amended): right after `init` the command velocity is zero and the
step keeps `q_c_` a unit quaternion. -/
theorem generateCommandSignal_norm_one_iff_witness :
    (Sim.init Sim.blank).q_c_.norm = 1 ∧
    (Sim.generateCommandSignal (Sim.init Sim.blank)).q_c_.norm = 1 :=
  have h : (Sim.init Sim.blank).q_c_.norm = 1 := by
    rw [norm_eq_one_iff]
    norm_num [Sim.init, Quaterniond.squaredNorm, Quaterniond.Identity]
  ⟨h, (generateCommandSignal_norm_one_iff (Sim.init Sim.blank) h).mpr (Or.inr rfl)⟩

/-! ## Euler angles -/

/-- C10: for every real `yaw`, `pitch` and `roll`, the quaternion
`EulerToQuat yaw pitch roll` satisfies `w^2 + x^2 + y^2 + z^2 = 1`. -/
theorem EulerToQuat_unit (yaw pitch roll : ℝ) :
    (EulerToQuat yaw pitch roll).w ^ 2 + (EulerToQuat yaw pitch roll).x ^ 2
      + (EulerToQuat yaw pitch roll).y ^ 2 + (EulerToQuat yaw pitch roll).z ^ 2 = 1 := by
  have hy := Real.sin_sq_add_cos_sq (yaw * 0.5)
  have hp := Real.sin_sq_add_cos_sq (pitch * 0.5)
  have hr := Real.sin_sq_add_cos_sq (roll * 0.5)
  simp only [EulerToQuat]
  generalize Real.sin (yaw * 0.5) = sy at hy ⊢
  generalize Real.cos (yaw * 0.5) = cy at hy ⊢
  generalize Real.sin (pitch * 0.5) = sp at hp ⊢
  generalize Real.cos (pitch * 0.5) = cp at hp ⊢
  generalize Real.sin (roll * 0.5) = sr at hr ⊢
  generalize Real.cos (roll * 0.5) = cr at hr ⊢
  have key : (cr * cp * cy + sr * sp * sy) ^ 2 + (sr * cp * cy - cr * sp * sy) ^ 2
      + (cr * sp * cy + sr * cp * sy) ^ 2 + (cr * cp * sy - sr * sp * cy) ^ 2
      = (sr ^ 2 + cr ^ 2) * (sp ^ 2 + cp ^ 2) * (sy ^ 2 + cy ^ 2) := by ring
  rw [key, hy, hp, hr]
  norm_num

theorem atan2_mul_sin_cos (c θ : ℝ) (hc : 0 < c) (h1 : -Real.pi < θ) (h2 : θ ≤ Real.pi) :
    atan2 (Real.sin θ * c) (Real.cos θ * c) = θ := by
  have h : (⟨Real.cos θ * c, Real.sin θ * c⟩ : ℂ)
      = (c : ℂ) * (Complex.cos θ + Complex.sin θ * Complex.I) := by
    apply Complex.ext
    · simp [Complex.cos_ofReal_re, Complex.sin_ofReal_re, Complex.cos_ofReal_im,
        Complex.sin_ofReal_im]
      ring
    · simp [Complex.cos_ofReal_re, Complex.sin_ofReal_re, Complex.cos_ofReal_im,
        Complex.sin_ofReal_im]
      ring
  unfold atan2
  rw [h]
  exact Complex.arg_mul_cos_add_sin_mul_I hc ⟨h1, h2⟩

/-- The five products read by `QuatToEuler`, evaluated on `EulerToQuat yaw pitch roll`. -/
theorem EulerToQuat_products (yaw pitch roll : ℝ) :
    2 * ((EulerToQuat yaw pitch roll).w * (EulerToQuat yaw pitch roll).x
        + (EulerToQuat yaw pitch roll).y * (EulerToQuat yaw pitch roll).z)
      = Real.sin roll * Real.cos pitch ∧
    1 - 2 * ((EulerToQuat yaw pitch roll).x * (EulerToQuat yaw pitch roll).x
        + (EulerToQuat yaw pitch roll).y * (EulerToQuat yaw pitch roll).y)
      = Real.cos roll * Real.cos pitch ∧
    2 * ((EulerToQuat yaw pitch roll).w * (EulerToQuat yaw pitch roll).y
        - (EulerToQuat yaw pitch roll).z * (EulerToQuat yaw pitch roll).x)
      = Real.sin pitch ∧
    2 * ((EulerToQuat yaw pitch roll).w * (EulerToQuat yaw pitch roll).z
        + (EulerToQuat yaw pitch roll).x * (EulerToQuat yaw pitch roll).y)
      = Real.sin yaw * Real.cos pitch ∧
    1 - 2 * ((EulerToQuat yaw pitch roll).y * (EulerToQuat yaw pitch roll).y
        + (EulerToQuat yaw pitch roll).z * (EulerToQuat yaw pitch roll).z)
      = Real.cos yaw * Real.cos pitch := by
  have hy := Real.sin_sq_add_cos_sq (yaw * 0.5)
  have hp := Real.sin_sq_add_cos_sq (pitch * 0.5)
  have hr := Real.sin_sq_add_cos_sq (roll * 0.5)
  have ey : yaw = 2 * (yaw * 0.5) := by ring
  have ep : pitch = 2 * (pitch * 0.5) := by ring
  have er : roll = 2 * (roll * 0.5) := by ring
  have sy2 : Real.sin yaw = 2 * Real.sin (yaw * 0.5) * Real.cos (yaw * 0.5) := by
    conv_lhs => rw [ey]
    exact Real.sin_two_mul _
  have cy2 : Real.cos yaw = Real.cos (yaw * 0.5) ^ 2 - Real.sin (yaw * 0.5) ^ 2 := by
    conv_lhs => rw [ey]
    exact Real.cos_two_mul' _
  have sp2 : Real.sin pitch = 2 * Real.sin (pitch * 0.5) * Real.cos (pitch * 0.5) := by
    conv_lhs => rw [ep]
    exact Real.sin_two_mul _
  have cp2 : Real.cos pitch = Real.cos (pitch * 0.5) ^ 2 - Real.sin (pitch * 0.5) ^ 2 := by
    conv_lhs => rw [ep]
    exact Real.cos_two_mul' _
  have sr2 : Real.sin roll = 2 * Real.sin (roll * 0.5) * Real.cos (roll * 0.5) := by
    conv_lhs => rw [er]
    exact Real.sin_two_mul _
  have cr2 : Real.cos roll = Real.cos (roll * 0.5) ^ 2 - Real.sin (roll * 0.5) ^ 2 := by
    conv_lhs => rw [er]
    exact Real.cos_two_mul' _
  rw [sy2, cy2, sp2, cp2, sr2, cr2]
  simp only [EulerToQuat]
  generalize Real.sin (yaw * 0.5) = sy at hy ⊢
  generalize Real.cos (yaw * 0.5) = cy at hy ⊢
  generalize Real.sin (pitch * 0.5) = sp at hp ⊢
  generalize Real.cos (pitch * 0.5) = cp at hp ⊢
  generalize Real.sin (roll * 0.5) = sr at hr ⊢
  generalize Real.cos (roll * 0.5) = cr at hr ⊢
  refine ⟨?_, ?_, ?_, ?_, ?_⟩
  · linear_combination (2 * cr * sr * (cp ^ 2 - sp ^ 2)) * hy
  · linear_combination (-(sp ^ 2 + cp ^ 2)) * hr - hp
      - 2 * (sr ^ 2 * cp ^ 2 + cr ^ 2 * sp ^ 2) * hy
  · linear_combination (2 * cp * sp * (sy ^ 2 + cy ^ 2)) * hr + (2 * cp * sp) * hy
  · linear_combination (2 * cy * sy * (cp ^ 2 - sp ^ 2)) * hr
  · linear_combination (-(sp ^ 2 + cp ^ 2)) * hy - hp
      - 2 * (sp ^ 2 * cy ^ 2 + cp ^ 2 * sy ^ 2) * hr

theorem abs_sin_lt_one_of_mem (p : ℝ) (h1 : -(Real.pi / 2) < p) (h2 : p < Real.pi / 2) :
    ¬ |Real.sin p| ≥ 1 := by
  have hc : 0 < Real.cos p := Real.cos_pos_of_mem_Ioo ⟨h1, h2⟩
  have hs := Real.sin_sq_add_cos_sq p
  intro h
  have h3 : 1 ≤ Real.sin p ^ 2 := by
    have := sq_le_sq' (by linarith [abs_nonneg (Real.sin p)] : -|Real.sin p| ≤ 1) h
    simpa using this
  nlinarith [sq_pos_of_pos hc]

/-- C11, amended: for every angle triple with pitch strictly between `-π/2` and `π/2` and
with yaw and roll in `(-π, π]`, `QuatToEuler (EulerToQuat yaw pitch roll)` is exactly
`(roll, pitch, yaw)`. -/
theorem QuatToEuler_EulerToQuat (yaw pitch roll : ℝ)
    (hr1 : -Real.pi < roll) (hr2 : roll ≤ Real.pi)
    (hp1 : -(Real.pi / 2) < pitch) (hp2 : pitch < Real.pi / 2)
    (hy1 : -Real.pi < yaw) (hy2 : yaw ≤ Real.pi) :
    QuatToEuler (EulerToQuat yaw pitch roll) = ![roll, pitch, yaw] := by
  obtain ⟨e1, e2, e3, e4, e5⟩ := EulerToQuat_products yaw pitch roll
  have hc : 0 < Real.cos pitch := Real.cos_pos_of_mem_Ioo ⟨hp1, hp2⟩
  simp only [QuatToEuler]
  rw [e1, e2, e3, e4, e5, atan2_mul_sin_cos _ _ hc hr1 hr2, atan2_mul_sin_cos _ _ hc hy1 hy2,
    if_neg (abs_sin_lt_one_of_mem pitch hp1 hp2), Real.arcsin_sin hp1.le hp2.le]

/-- Witness for C11 (amended): yaw `1`, pitch `1/2`, roll `-1`. -/
theorem QuatToEuler_EulerToQuat_witness :
    QuatToEuler (EulerToQuat 1 (1 / 2) (-1)) = ![-1, 1 / 2, 1] :=
  QuatToEuler_EulerToQuat 1 (1 / 2) (-1)
    (by linarith [Real.pi_gt_three]) (by linarith [Real.pi_gt_three])
    (by linarith [Real.pi_gt_three]) (by linarith [Real.pi_gt_three])
    (by linarith [Real.pi_gt_three]) (by linarith [Real.pi_gt_three])

theorem EulerToQuat_full_turn : EulerToQuat (2 * Real.pi) 0 0 = ⟨-1, 0, 0, 0⟩ := by
  have h : 2 * Real.pi * 0.5 = Real.pi := by ring
  simp [EulerToQuat, h]

/-- C11 as stated fails outside the range of `atan2`: for yaw `2π`, pitch `0` (inside
`(-π/2, π/2)`) and roll `0`, `EulerToQuat` gives `(-1, 0, 0, 0)` and `QuatToEuler` returns
yaw `0`, not `2π`. -/
theorem QuatToEuler_EulerToQuat_full_turn :
    (-(Real.pi / 2) < (0 : ℝ) ∧ (0 : ℝ) < Real.pi / 2) ∧
    QuatToEuler (EulerToQuat (2 * Real.pi) 0 0) 2 = 0 ∧
    QuatToEuler (EulerToQuat (2 * Real.pi) 0 0) 2 ≠ 2 * Real.pi := by
  have h0 : QuatToEuler (EulerToQuat (2 * Real.pi) 0 0) 2 = 0 := by
    rw [EulerToQuat_full_turn]
    simp only [QuatToEuler, atan2]
    show Complex.arg ⟨1 - 2 * (0 * 0 + 0 * 0), 2 * (-1 * 0 + 0 * 0)⟩ = 0
    have h1 : (⟨1 - 2 * (0 * 0 + 0 * 0), 2 * (-1 * 0 + 0 * 0)⟩ : ℂ) = 1 := by
      apply Complex.ext <;> simp
    rw [h1, Complex.arg_one]
  have hpi := Real.pi_pos
  refine ⟨⟨by linarith, by linarith⟩, h0, ?_⟩
  rw [h0]
  linarith

/-- C12: for every quaternion `q` (unit or not) `QuatToEuler` returns a pitch in
`[-π/2, π/2]`; with `sinp = 2 (w y - z x)`, the pitch is `π/2` when `sinp ≥ 1`, is `-π/2`
when `sinp ≤ -1`, and is `arcsin sinp` when `|sinp| < 1`. The conversion is a total
function, so no input makes it fail. -/
theorem QuatToEuler_pitch (q : Quaterniond ℝ) :
    (-(Real.pi / 2) ≤ QuatToEuler q 1 ∧ QuatToEuler q 1 ≤ Real.pi / 2) ∧
    (2 * (q.w * q.y - q.z * q.x) ≥ 1 → QuatToEuler q 1 = Real.pi / 2) ∧
    (2 * (q.w * q.y - q.z * q.x) ≤ -1 → QuatToEuler q 1 = -(Real.pi / 2)) ∧
    (|2 * (q.w * q.y - q.z * q.x)| < 1 →
      QuatToEuler q 1 = Real.arcsin (2 * (q.w * q.y - q.z * q.x))) := by
  have hpi := Real.pi_pos
  have habs : |Real.pi / 2| = Real.pi / 2 := abs_of_pos (by linarith)
  have hval : QuatToEuler q 1 =
      if |2 * (q.w * q.y - q.z * q.x)| ≥ 1
      then copysign (Real.pi / 2) (2 * (q.w * q.y - q.z * q.x))
      else Real.arcsin (2 * (q.w * q.y - q.z * q.x)) := by
    simp [QuatToEuler]
  refine ⟨?_, ?_, ?_, ?_⟩
  · rw [hval]
    split_ifs with h
    · unfold copysign
      split_ifs <;> rw [habs] <;> constructor <;> linarith
    · exact ⟨Real.neg_pi_div_two_le_arcsin _, Real.arcsin_le_pi_div_two _⟩
  · intro h
    rw [hval, if_pos (le_trans h (le_abs_self _))]
    unfold copysign
    rw [if_neg (by linarith), habs]
  · intro h
    rw [hval, if_pos (le_trans (by linarith) (neg_le_abs _))]
    unfold copysign
    rw [if_pos (by linarith), habs]
  · intro h
    rw [hval, if_neg (not_le.mpr h)]

/-- Witness for C12: the non-unit quaternion `(1, 0, 1, 0)` has `sinp = 2` and gets pitch
`π/2`. -/
theorem QuatToEuler_pitch_witness :
    QuatToEuler ⟨1, 0, 1, 0⟩ 1 = Real.pi / 2 :=
  (QuatToEuler_pitch ⟨1, 0, 1, 0⟩).2.1 (by norm_num)

/-! ## Logarithm map -/

/-- For a unit quaternion, the angle and axis Eigen extracts rebuild the quaternion up to
the global sign: they are an angle-axis decomposition of the same rotation. -/
theorem ofQuaternion_toQuaternion (q : Quaterniond ℝ) (h : q.squaredNorm = 1) :
    (AngleAxis.ofQuaternion q).toQuaternion = q ∨
      (AngleAxis.ofQuaternion q).toQuaternion = q.neg := by
  obtain ⟨w, x, y, z⟩ := q
  simp only [Quaterniond.squaredNorm] at h
  have hnn : 0 ≤ x * x + y * y + z * z := by
    nlinarith [mul_self_nonneg x, mul_self_nonneg y, mul_self_nonneg z]
  have hsq : Real.sqrt (x * x + y * y + z * z) * Real.sqrt (x * x + y * y + z * z)
      = x * x + y * y + z * z := Real.mul_self_sqrt hnn
  by_cases hn : Real.sqrt (x * x + y * y + z * z) = 0
  · have h0 : x * x + y * y + z * z = 0 := (Real.sqrt_eq_zero hnn).mp hn
    have hx : x = 0 := by nlinarith [mul_self_nonneg x, mul_self_nonneg y, mul_self_nonneg z]
    have hy : y = 0 := by nlinarith [mul_self_nonneg x, mul_self_nonneg y, mul_self_nonneg z]
    have hz : z = 0 := by nlinarith [mul_self_nonneg x, mul_self_nonneg y, mul_self_nonneg z]
    subst hx hy hz
    have hw : w = 1 ∨ w = -1 := by
      have : (w - 1) * (w + 1) = 0 := by linarith
      rcases mul_eq_zero.mp this with h1 | h1
      · exact Or.inl (by linarith)
      · exact Or.inr (by linarith)
    rcases hw with hw | hw
    · left
      subst hw
      simp [AngleAxis.ofQuaternion, AngleAxis.toQuaternion]
    · right
      subst hw
      simp [AngleAxis.ofQuaternion, AngleAxis.toQuaternion, Quaterniond.neg]
  · set n := Real.sqrt (x * x + y * y + z * z) with hndef
    have hnpos : 0 < n := lt_of_le_of_ne (Real.sqrt_nonneg _) (Ne.symm hn)
    have habs : Complex.abs ⟨|w|, n⟩ = 1 := by
      rw [Complex.abs_apply, Complex.normSq_apply]
      simp only [abs_mul_abs_self, hsq]
      rw [show w * w + (x * x + y * y + z * z) = 1 by linarith]
      exact Real.sqrt_one
    have hne : (⟨|w|, n⟩ : ℂ) ≠ 0 := by
      intro h0
      have := congrArg Complex.im h0
      simp at this
      exact hn this
    have hcos : Real.cos (atan2 n |w|) = |w| := by
      unfold atan2
      rw [Complex.cos_arg hne, habs]
      simp
    have hsin : Real.sin (atan2 n |w|) = n := by
      unfold atan2
      rw [Complex.sin_arg, habs]
      simp
    have hhalf : 2 * atan2 n |w| / 2 = atan2 n |w| := by ring
    have hdiv : ∀ t : ℝ, n * (t / n) = t := by
      intro t
      field_simp
    have hdivneg : ∀ t : ℝ, n * (t / -n) = -t := by
      intro t
      rw [div_neg, mul_neg, hdiv]
    by_cases hw : w < 0
    · right
      simp only [AngleAxis.ofQuaternion, AngleAxis.toQuaternion, ← hndef, if_pos hn, hhalf,
        hcos, hsin, if_pos hw, Quaterniond.vec, Quaterniond.neg, Quaterniond.mk.injEq,
        ne_eq, not_false_eq_true, Matrix.cons_val_zero, Matrix.cons_val_one,
        Matrix.cons_val_two, Matrix.head_cons, Matrix.tail_cons]
      exact ⟨abs_of_neg hw, hdivneg x, hdivneg y, hdivneg z⟩
    · left
      simp only [AngleAxis.ofQuaternion, AngleAxis.toQuaternion, ← hndef, if_pos hn, hhalf,
        hcos, hsin, if_neg hw, Quaterniond.vec, Quaterniond.mk.injEq,
        ne_eq, not_false_eq_true, Matrix.cons_val_zero, Matrix.cons_val_one,
        Matrix.cons_val_two, Matrix.head_cons, Matrix.tail_cons]
      exact ⟨abs_of_nonneg (not_lt.mp hw), hdiv x, hdiv y, hdiv z⟩

/-- C13: for every quaternion `q`, `quat_log_v q` is `(angle / 2) • axis` for the angle
and axis Eigen extracts from `q`; for a unit `q` these are an angle-axis decomposition of
`q` (they rebuild `q` or `-q`, the same rotation); and `quat_log_v` of the identity
quaternion is `(0, 0, 0)`. -/
theorem quat_log_v_angle_axis (q : Quaterniond ℝ) :
    quat_log_v q
      = ((AngleAxis.ofQuaternion q).angle / 2) • (AngleAxis.ofQuaternion q).axis ∧
    (q.squaredNorm = 1 →
      (AngleAxis.ofQuaternion q).toQuaternion = q ∨
        (AngleAxis.ofQuaternion q).toQuaternion = q.neg) ∧
    quat_log_v Quaterniond.Identity = ![0, 0, 0] := by
  refine ⟨rfl, ofQuaternion_toQuaternion q, ?_⟩
  rw [quat_log_v_Identity]
  ext i
  fin_cases i <;> rfl

/-- Witness for C13: the half turn about the x axis, `q = (0, 1, 0, 0)`. -/
theorem quat_log_v_angle_axis_witness :
    (AngleAxis.ofQuaternion ⟨0, 1, 0, 0⟩).toQuaternion = ⟨0, 1, 0, 0⟩ ∨
      (AngleAxis.ofQuaternion ⟨0, 1, 0, 0⟩).toQuaternion
        = Quaterniond.neg ⟨0, 1, 0, 0⟩ :=
  (quat_log_v_angle_axis ⟨0, 1, 0, 0⟩).2.1 (by norm_num [Quaterniond.squaredNorm])

/-! ## Rest scenario -/

theorem transformVector_zero (q : Quaterniond ℝ) : q._transformVector 0 = 0 := by
  simp [Quaterniond._transformVector]

theorem EulerToQuat_zero : EulerToQuat 0 0 0 = Quaterniond.Identity := by
  simp [EulerToQuat, Quaterniond.Identity]

theorem Identity_conjugate_mul :
    (Quaterniond.Identity : Quaterniond ℝ).conjugate.mul Quaterniond.Identity
      = Quaterniond.Identity := by
  simp [Quaterniond.conjugate, Quaterniond.mul, Quaterniond.Identity]

theorem quat_plus_map_Identity :
    quat_plus_map (Quaterniond.Identity : Quaterniond ℝ) = Quaterniond.Identity :=
  quat_plus_map_of_nonneg _ (by simp [Quaterniond.Identity])

/-- One simulation cycle at rest keeps the command at the identity with zero velocity and
stores a zero torque. -/
theorem Sim_controllerCallback_rest (s : Sim.State ℝ) (t : ℝ)
    (hc : s.q_c_ = Quaterniond.Identity) (hw : s.w_c_ = 0)
    (hr : s.q_r_ = Quaterniond.Identity) :
    (Sim.controllerCallback s Quaterniond.Identity 0 t).q_c_ = Quaterniond.Identity ∧
    (Sim.controllerCallback s Quaterniond.Identity 0 t).w_c_ = 0 ∧
    (Sim.controllerCallback s Quaterniond.Identity 0 t).q_r_ = Quaterniond.Identity ∧
    (Sim.controllerCallback s Quaterniond.Identity 0 t).input_.tau = 0 := by
  have hq : (Sim.generateCommandSignal { s with t_ := t, q_ := Quaterniond.Identity, w_ := 0 }).q_c_
      = Quaterniond.Identity := by
    simp [Sim.generateCommandSignal, hc, hw, Quaterniond.mul, Quaterniond.vec,
      Quaterniond.Identity]
  have hwc : (Sim.generateCommandSignal
      { s with t_ := t, q_ := Quaterniond.Identity, w_ := 0 }).w_c_ = 0 := by
    simp [Sim.generateCommandSignal, hc, hw, hr, Identity_conjugate_mul,
      quat_plus_map_Identity, quat_log_v_Identity]
  have hwd : (Sim.generateCommandSignal
      { s with t_ := t, q_ := Quaterniond.Identity, w_ := 0 }).w_c_dot_body_frame = 0 := by
    simp [Sim.generateCommandSignal, hc, hw, hr, Identity_conjugate_mul,
      quat_plus_map_Identity, quat_log_v_Identity, transformVector_zero]
  have hwb : (Sim.generateCommandSignal
      { s with t_ := t, q_ := Quaterniond.Identity, w_ := 0 }).w_c_body_frame = 0 := by
    simp [Sim.generateCommandSignal, hc, hw, hr, Identity_conjugate_mul,
      quat_plus_map_Identity, quat_log_v_Identity, transformVector_zero]
  refine ⟨hq, hwc, ?_, ?_⟩
  · simp [Sim.controllerCallback, Sim.computeInput, Sim.calculateErrors,
      Sim.generateCommandSignal, hr]
  · simp only [Sim.controllerCallback, Sim.computeInput, Sim.calculateErrors]
    rw [hq, hwc, hwd, hwb]
    have h1 : (Sim.generateCommandSignal
        { s with t_ := t, q_ := Quaterniond.Identity, w_ := 0 }).w_ = 0 := rfl
    have h2 : (Sim.generateCommandSignal
        { s with t_ := t, q_ := Quaterniond.Identity, w_ := 0 }).q_ = Quaterniond.Identity := rfl
    rw [h1, h2]
    simp [Identity_conjugate_mul, quat_plus_map_Identity, quat_log_v_Identity,
      transformVector_zero, cross_map_zero]

theorem Sim_foldl_rest (ts : List ℝ) (s : Sim.State ℝ)
    (hc : s.q_c_ = Quaterniond.Identity) (hw : s.w_c_ = 0)
    (hr : s.q_r_ = Quaterniond.Identity) :
    (ts.foldl (fun s1 t => Sim.controllerCallback s1 Quaterniond.Identity 0 t) s).q_c_
      = Quaterniond.Identity ∧
    (ts.foldl (fun s1 t => Sim.controllerCallback s1 Quaterniond.Identity 0 t) s).w_c_ = 0 ∧
    (ts.foldl (fun s1 t => Sim.controllerCallback s1 Quaterniond.Identity 0 t) s).q_r_
      = Quaterniond.Identity := by
  induction ts generalizing s with
  | nil => exact ⟨hc, hw, hr⟩
  | cons t ts ih =>
    obtain ⟨h1, h2, h3, _⟩ := Sim_controllerCallback_rest s t hc hw hr
    exact ih _ h1 h2 h3

/-- One node cycle at rest with a level command keeps the stored command and thrust
request, stores a zero torque and publishes zero torque commands. -/
theorem Ros_odomCallback_rest (s : Ros.State ℝ)
    (hc : s.q_c_ = Quaterniond.Identity) (hw : s.w_c_ = 0)
    (hb : s.w_c_body_frame = 0) (hd : s.w_c_dot_body_frame = 0) :
    ((Ros.odomCallback s Quaterniond.Identity 0).1.q_c_ = Quaterniond.Identity ∧
     (Ros.odomCallback s Quaterniond.Identity 0).1.w_c_ = 0 ∧
     (Ros.odomCallback s Quaterniond.Identity 0).1.w_c_body_frame = 0 ∧
     (Ros.odomCallback s Quaterniond.Identity 0).1.w_c_dot_body_frame = 0 ∧
     (Ros.odomCallback s Quaterniond.Identity 0).1.input_.F = s.input_.F ∧
     (Ros.odomCallback s Quaterniond.Identity 0).1.max_thrust_ = s.max_thrust_) ∧
    (Ros.odomCallback s Quaterniond.Identity 0).1.input_.tau = 0 ∧
    (Ros.odomCallback s Quaterniond.Identity 0).2.F
      = saturate (s.input_.F / s.max_thrust_) 0 1 ∧
    (Ros.odomCallback s Quaterniond.Identity 0).2.x = 0 ∧
    (Ros.odomCallback s Quaterniond.Identity 0).2.y = 0 ∧
    (Ros.odomCallback s Quaterniond.Identity 0).2.z = 0 := by
  have htau : (Ros.odomCallback s Quaterniond.Identity 0).1.input_.tau = 0 := by
    simp [Ros.odomCallback, Ros.computeInput, Ros.calculateErrors, hc, hw, hb, hd,
      Identity_conjugate_mul, quat_plus_map_Identity, quat_log_v_Identity,
      transformVector_zero, cross_map_zero]
  have hx : ∀ i, (Ros.odomCallback s Quaterniond.Identity 0).1.input_.tau i = 0 := by
    intro i
    rw [htau]
    rfl
  have hsat : ∀ m : ℝ, saturate (0 / m) (-1) 1 = 0 := by
    intro m
    norm_num [saturate]
  refine ⟨⟨hc, hw, hb, hd, rfl, rfl⟩, htau, rfl, ?_, ?_, ?_⟩
  · show saturate ((Ros.odomCallback s Quaterniond.Identity 0).1.input_.tau 0 / _) (-1) 1 = 0
    rw [hx 0]
    exact hsat _
  · show saturate ((Ros.odomCallback s Quaterniond.Identity 0).1.input_.tau 1 / _) (-1) 1 = 0
    rw [hx 1]
    exact hsat _
  · show saturate ((Ros.odomCallback s Quaterniond.Identity 0).1.input_.tau 2 / _) (-1) 1 = 0
    rw [hx 2]
    exact hsat _

theorem Ros_restCycles_inv (s : Ros.State ℝ) (F : ℝ) (n : ℕ) :
    (Ros.restCycles s F n).q_c_ = Quaterniond.Identity ∧
    (Ros.restCycles s F n).w_c_ = 0 ∧
    (Ros.restCycles s F n).w_c_body_frame = 0 ∧
    (Ros.restCycles s F n).w_c_dot_body_frame = 0 ∧
    (Ros.restCycles s F n).input_.F = F ∧
    (Ros.restCycles s F n).max_thrust_ = 14.961 * 4 := by
  induction n with
  | zero =>
    refine ⟨?_, ?_, ?_, ?_, ?_, ?_⟩
    · show EulerToQuat 0 0 0 = Quaterniond.Identity
      exact EulerToQuat_zero
    · rfl
    · show (Quaterniond.Identity : Quaterniond ℝ).conjugate._transformVector 0 = 0
      exact transformVector_zero _
    · show (Quaterniond.Identity : Quaterniond ℝ).conjugate._transformVector 0 = 0
      exact transformVector_zero _
    · rfl
    · rfl
  | succ n ih =>
    obtain ⟨h1, h2, h3, h4, h5, h6⟩ := ih
    have hstep : Ros.restCycles s F (n + 1)
        = (Ros.odomCallback (Ros.restCycles s F n) Quaterniond.Identity 0).1 := by
      unfold Ros.restCycles
      rw [Function.iterate_succ_apply']
    obtain ⟨⟨g1, g2, g3, g4, g5, g6⟩, _⟩ := Ros_odomCallback_rest _ h1 h2 h3 h4
    rw [hstep]
    exact ⟨g1, g2, g3, g4, g5.trans h5, g6.trans h6⟩

/-- C14: in the simulation build, after `init` and any number `n ≥ 1` of control cycles
fed `q = identity`, `w = 0`, the stored torque is `(0, 0, 0)` and `q_c_` is the identity;
in the node, after `init` and a level command with thrust request `F`, every cycle fed
`q = identity`, `w = 0` stores torque `(0, 0, 0)` and publishes torque commands
`x = y = z = 0` and thrust `saturate (F / max_thrust_) 0 1` with
`max_thrust_ = 14.961 * 4`. -/
theorem rest_scenario :
    (∀ (s : Sim.State ℝ) (ts : List ℝ) (t : ℝ),
      (Sim.restCycles s (ts ++ [t])).input_.tau = 0 ∧
      (Sim.restCycles s (ts ++ [t])).q_c_ = Quaterniond.Identity) ∧
    (∀ (s : Ros.State ℝ) (F : ℝ) (n : ℕ),
      (Ros.odomCallback (Ros.restCycles s F n) Quaterniond.Identity 0).1.input_.tau = 0 ∧
      (Ros.odomCallback (Ros.restCycles s F n) Quaterniond.Identity 0).2.x = 0 ∧
      (Ros.odomCallback (Ros.restCycles s F n) Quaterniond.Identity 0).2.y = 0 ∧
      (Ros.odomCallback (Ros.restCycles s F n) Quaterniond.Identity 0).2.z = 0 ∧
      (Ros.odomCallback (Ros.restCycles s F n) Quaterniond.Identity 0).2.F
        = saturate (F / (14.961 * 4)) 0 1) := by
  constructor
  · intro s ts t
    have h0 : (Sim.init s).q_r_ = Quaterniond.Identity := EulerToQuat_zero
    obtain ⟨h1, h2, h3⟩ := Sim_foldl_rest ts (Sim.init s) rfl rfl h0
    obtain ⟨g1, _, _, g4⟩ := Sim_controllerCallback_rest _ t h1 h2 h3
    unfold Sim.restCycles
    rw [List.foldl_append]
    exact ⟨g4, g1⟩
  · intro s F n
    obtain ⟨h1, h2, h3, h4, h5, h6⟩ := Ros_restCycles_inv s F n
    obtain ⟨_, g1, g2, g3, g4, g5⟩ := Ros_odomCallback_rest _ h1 h2 h3 h4
    refine ⟨g1, g3, g4, g5, ?_⟩
    rw [g2, h5, h6]

/-! ## Purity of the rotation math -/

/-- C15, evaluated on the node right after `init`: `init` sets `k_q_ = 30`, and a call of
`vee_map` on any matrix leaves the object with `k_q_ = 1`, so the gain is not preserved. -/
theorem vee_map_overwrites_k_q (M : Matrix3d ℚ) :
    (Ros.init (Ros.blank : Ros.State ℚ)).k_q_ = 30 ∧
    (Ros.vee_map (Ros.init (Ros.blank : Ros.State ℚ)) M).2.k_q_ = 1 ∧
    (Ros.vee_map (Ros.init (Ros.blank : Ros.State ℚ)) M).2.k_q_
      ≠ (Ros.init (Ros.blank : Ros.State ℚ)).k_q_ := by
  refine ⟨rfl, ?_, ?_⟩
  · norm_num [Ros.vee_map]
  · norm_num [Ros.vee_map, Ros.init]

/-! ## Command generator: the integration step -/

/-- The shape of one `generateCommandSignal` step, with the code's own `quat_plus_map`:
the stored acceleration is `-2 w0^2 • quat_log_v (quat_plus_map q_rc) - 2 ζ w0 • w_c_`
for `q_rc = conj(q_r_) * q_c_`, the new `q_c_` is `q_c_ + h (q_c_ * (0, w_c_ / 2))` with
the old `q_c_` and `w_c_`, the new `w_c_` is `w_c_ + h • w_c_dot_` with the old `w_c_`,
and `q_r_` is unchanged. -/
theorem generateCommandSignal_euler_step (s : Sim.State ℝ) :
    (Sim.generateCommandSignal s).w_c_dot_
      = (-2 * s.cmd_w_0_ ^ 2) • quat_log_v (quat_plus_map (s.q_r_.conjugate.mul s.q_c_))
        - (2 * s.cmd_damping_ * s.cmd_w_0_) • s.w_c_ ∧
    (Sim.generateCommandSignal s).q_c_
      = ⟨s.q_c_.w + s.time_step_ * (s.q_c_.mul ⟨0, s.w_c_ 0 / 2, s.w_c_ 1 / 2, s.w_c_ 2 / 2⟩).w,
         s.q_c_.x + s.time_step_ * (s.q_c_.mul ⟨0, s.w_c_ 0 / 2, s.w_c_ 1 / 2, s.w_c_ 2 / 2⟩).x,
         s.q_c_.y + s.time_step_ * (s.q_c_.mul ⟨0, s.w_c_ 0 / 2, s.w_c_ 1 / 2, s.w_c_ 2 / 2⟩).y,
         s.q_c_.z + s.time_step_ * (s.q_c_.mul ⟨0, s.w_c_ 0 / 2, s.w_c_ 1 / 2, s.w_c_ 2 / 2⟩).z⟩ ∧
    (Sim.generateCommandSignal s).w_c_
      = s.w_c_ + s.time_step_ • (Sim.generateCommandSignal s).w_c_dot_ ∧
    (Sim.generateCommandSignal s).q_r_ = s.q_r_ := by
  refine ⟨rfl, ?_, rfl, rfl⟩
  have h5 : ∀ t : ℝ, (0.5 : ℝ) * t = t / 2 := by
    intro t
    norm_num
    ring
  simp [Sim.generateCommandSignal, Quaterniond.mul, Quaterniond.vec, h5]

/-! ## Body-frame command values within a cycle -/

theorem staleFrameExample_w_c :
    Sim.staleFrameExample.w_c_ = ![9 / 10 * Real.pi, 0, 0] := by
  have hq : (Quaterniond.conjugate (⟨0, 1, 0, 0⟩ : Quaterniond ℝ)).mul Quaterniond.Identity
      = ⟨0, -1, 0, 0⟩ := by
    simp [Quaterniond.conjugate, Quaterniond.mul, Quaterniond.Identity]
  have hp : quat_plus_map (⟨0, -1, 0, 0⟩ : Quaterniond ℝ) = ⟨0, -1, 0, 0⟩ :=
    quat_plus_map_of_nonneg _ (le_refl _)
  ext i
  fin_cases i
  · simp [Sim.staleFrameExample, Sim.controllerCallback, Sim.computeInput,
      Sim.calculateErrors, Sim.generateCommandSignal, Sim.setRefSignal, Sim.init, hq, hp,
      quat_log_v_half_turn]
    norm_num
    ring
  · simp [Sim.staleFrameExample, Sim.controllerCallback, Sim.computeInput,
      Sim.calculateErrors, Sim.generateCommandSignal, Sim.setRefSignal, Sim.init, hq, hp,
      quat_log_v_half_turn]
  · simp [Sim.staleFrameExample, Sim.controllerCallback, Sim.computeInput,
      Sim.calculateErrors, Sim.generateCommandSignal, Sim.setRefSignal, Sim.init, hq, hp,
      quat_log_v_half_turn]

theorem transformVector_Identity_conjugate (v : Vector3d ℝ) :
    (Quaterniond.Identity : Quaterniond ℝ).conjugate._transformVector v = v := by
  ext i
  fin_cases i <;>
    simp [Quaterniond._transformVector, Quaterniond.conjugate, Quaterniond.Identity,
      Quaterniond.vec, crossProduct, Matrix.vecHead, Matrix.vecTail]

theorem staleFrameExample_body_frame :
    Sim.staleFrameExample.w_c_body_frame = Sim.staleFrameExample.w_c_ :=
  transformVector_Identity_conjugate _

theorem staleFrameExample_q_e : Sim.staleFrameExample.q_e_ = ⟨0, 0, 0, 1⟩ := by
  have h : Sim.staleFrameExample.q_e_
      = (Sim.generateCommandSignal
          { Sim.setRefSignal (Sim.init Sim.blank) ⟨0, 1, 0, 0⟩ with
            t_ := 0, q_ := ⟨0, 0, 0, 1⟩, w_ := 0 }).q_c_.conjugate.mul ⟨0, 0, 0, 1⟩ := rfl
  rw [h]
  simp [Sim.generateCommandSignal, Sim.setRefSignal, Sim.init, Quaterniond.mul,
    Quaterniond.vec, Quaterniond.conjugate, Quaterniond.Identity]

theorem staleFrameExample_w_bc :
    Sim.staleFrameExample.w_bc_ = ![9 / 10 * Real.pi, 0, 0] := by
  have h : Sim.staleFrameExample.w_bc_
      = 0 - Sim.staleFrameExample.q_e_.conjugate._transformVector
          Sim.staleFrameExample.w_c_ := rfl
  rw [h, staleFrameExample_q_e, staleFrameExample_w_c]
  ext i
  fin_cases i <;>
    simp [Quaterniond._transformVector, Quaterniond.conjugate, Quaterniond.vec,
      crossProduct, Matrix.vecHead, Matrix.vecTail]

/-- C18, evaluated on the first cycle after `init` and `setRefSignal (0, 1, 0, 0)`, fed
`q = (0, 0, 0, 1)` and `w = 0`: the cycle's error quaternion is `q_e_ = (0, 0, 0, 1)` and
`w_c_ = (0.9 π, 0, 0)`, but `w_c_body_frame` is `(0.9 π, 0, 0)` (it was rotated with the
`q_e_` of before the cycle, the identity), while `w_bc_ = (0.9 π, 0, 0)` was computed with
the new `q_e_`; so `w_bc_` differs from `w_ - w_c_body_frame = (-0.9 π, 0, 0)`. -/
theorem controllerCallback_stale_body_frame :
    Sim.staleFrameExample.q_e_ = ⟨0, 0, 0, 1⟩ ∧
    Sim.staleFrameExample.w_c_body_frame = ![9 / 10 * Real.pi, 0, 0] ∧
    Sim.staleFrameExample.q_e_.conjugate._transformVector Sim.staleFrameExample.w_c_
      = ![-(9 / 10 * Real.pi), 0, 0] ∧
    Sim.staleFrameExample.w_bc_ = ![9 / 10 * Real.pi, 0, 0] ∧
    Sim.staleFrameExample.w_bc_
      ≠ Sim.staleFrameExample.w_ - Sim.staleFrameExample.w_c_body_frame := by
  refine ⟨staleFrameExample_q_e, ?_, ?_, staleFrameExample_w_bc, ?_⟩
  · rw [staleFrameExample_body_frame, staleFrameExample_w_c]
  · rw [staleFrameExample_q_e, staleFrameExample_w_c]
    ext i
    fin_cases i <;>
      simp [Quaterniond._transformVector, Quaterniond.conjugate, Quaterniond.vec,
        crossProduct, Matrix.vecHead, Matrix.vecTail]
  · rw [staleFrameExample_w_bc, staleFrameExample_body_frame, staleFrameExample_w_c]
    intro h
    have h0 := congrFun h 0
    have hw : Sim.staleFrameExample.w_ = 0 := rfl
    rw [hw] at h0
    simp at h0
    have hpi := Real.pi_pos
    linarith

/-! ## Command generator: fixed point and norm growth -/

/-- C19: for every object of the simulation build (any bandwidth, damping and step) whose
reference `q_r_` is a unit quaternion, if `q_c_ = q_r_` and `w_c_ = 0` before
`generateCommandSignal`, then after it `w_c_dot_ = 0`, `w_c_ = 0` and `q_c_ = q_r_`. -/
theorem generateCommandSignal_fixed_point (s : Sim.State ℝ)
    (hunit : s.q_r_.norm = 1) (hc : s.q_c_ = s.q_r_) (hw : s.w_c_ = 0) :
    (Sim.generateCommandSignal s).w_c_dot_ = 0 ∧
    (Sim.generateCommandSignal s).w_c_ = 0 ∧
    (Sim.generateCommandSignal s).q_c_ = s.q_r_ := by
  have hrc : s.q_r_.conjugate.mul s.q_r_ = Quaterniond.Identity :=
    conjugate_mul_self _ ((norm_eq_one_iff _).mp hunit)
  have hd : (Sim.generateCommandSignal s).w_c_dot_ = 0 := by
    simp [Sim.generateCommandSignal, hc, hw, hrc, quat_plus_map_Identity,
      quat_log_v_Identity]
  refine ⟨hd, ?_, ?_⟩
  · have h1 : (Sim.generateCommandSignal s).w_c_
        = s.w_c_ + s.time_step_ • (Sim.generateCommandSignal s).w_c_dot_ := rfl
    rw [h1, hd, hw]
    simp
  · simp [Sim.generateCommandSignal, hc, hw, Quaterniond.mul, Quaterniond.vec]

/-- Witness for C19: reference and command both at the unit quaternion
`(3/5, 4/5, 0, 0)`, zero command velocity. -/
theorem generateCommandSignal_fixed_point_witness :
    Sim.onTargetExample.q_r_.norm = 1 ∧
    (Sim.generateCommandSignal Sim.onTargetExample).w_c_dot_ = 0 ∧
    (Sim.generateCommandSignal Sim.onTargetExample).w_c_ = 0 ∧
    (Sim.generateCommandSignal Sim.onTargetExample).q_c_ = ⟨3/5, 4/5, 0, 0⟩ :=
  have h : Sim.onTargetExample.q_r_.norm = 1 := by
    rw [norm_eq_one_iff]
    norm_num [Sim.onTargetExample, Quaterniond.squaredNorm]
  ⟨h, generateCommandSignal_fixed_point Sim.onTargetExample h rfl rfl⟩

theorem squaredNorm_nonneg (q : Quaterniond ℝ) : 0 ≤ q.squaredNorm := by
  unfold Quaterniond.squaredNorm
  nlinarith [mul_self_nonneg q.w, mul_self_nonneg q.x, mul_self_nonneg q.y,
    mul_self_nonneg q.z]

theorem squaredNorm_pos (q : Quaterniond ℝ) (h : q ≠ ⟨0, 0, 0, 0⟩) : 0 < q.squaredNorm := by
  rcases lt_or_eq_of_le (squaredNorm_nonneg q) with h1 | h1
  · exact h1
  · exfalso
    apply h
    obtain ⟨w, x, y, z⟩ := q
    simp only [Quaterniond.squaredNorm] at h1
    have hw : w = 0 := by
      nlinarith [mul_self_nonneg w, mul_self_nonneg x, mul_self_nonneg y, mul_self_nonneg z]
    have hx : x = 0 := by
      nlinarith [mul_self_nonneg w, mul_self_nonneg x, mul_self_nonneg y, mul_self_nonneg z]
    have hy : y = 0 := by
      nlinarith [mul_self_nonneg w, mul_self_nonneg x, mul_self_nonneg y, mul_self_nonneg z]
    have hz : z = 0 := by
      nlinarith [mul_self_nonneg w, mul_self_nonneg x, mul_self_nonneg y, mul_self_nonneg z]
    rw [hw, hx, hy, hz]

/-- C20: one `generateCommandSignal` step multiplies the squared norm of `q_c_` by exactly
`1 + h^2 ‖w_c_‖^2 / 4`, with `h = time_step_` and `w_c_` the pre-step command velocity;
hence the norm of `q_c_` never decreases, and it strictly increases whenever `w_c_ ≠ 0`
and `q_c_ ≠ 0`, the step being non-zero (as `init` sets it). -/
theorem generateCommandSignal_norm_scaling (s : Sim.State ℝ) :
    (Sim.generateCommandSignal s).q_c_.squaredNorm
      = s.q_c_.squaredNorm
        * (1 + s.time_step_ ^ 2 * (s.w_c_ 0 ^ 2 + s.w_c_ 1 ^ 2 + s.w_c_ 2 ^ 2) / 4) ∧
    s.q_c_.norm ≤ (Sim.generateCommandSignal s).q_c_.norm ∧
    (s.time_step_ ≠ 0 → s.w_c_ ≠ 0 → s.q_c_ ≠ ⟨0, 0, 0, 0⟩ →
      s.q_c_.norm < (Sim.generateCommandSignal s).q_c_.norm) := by
  have hscale := generateCommandSignal_squaredNorm s
  have hW : 0 ≤ s.w_c_ 0 ^ 2 + s.w_c_ 1 ^ 2 + s.w_c_ 2 ^ 2 := by positivity
  have hh : 0 ≤ s.time_step_ ^ 2 := sq_nonneg _
  have hN := squaredNorm_nonneg s.q_c_
  refine ⟨hscale, ?_, ?_⟩
  · unfold Quaterniond.norm
    apply Real.sqrt_le_sqrt
    rw [hscale]
    nlinarith [mul_nonneg hN (mul_nonneg hh hW)]
  · intro h0 hw hq
    unfold Quaterniond.norm
    apply Real.sqrt_lt_sqrt hN
    rw [hscale]
    have hpos := squaredNorm_pos _ hq
    have hh2 : 0 < s.time_step_ ^ 2 := by positivity
    have hW2 : 0 < s.w_c_ 0 ^ 2 + s.w_c_ 1 ^ 2 + s.w_c_ 2 ^ 2 := by
      rcases lt_or_eq_of_le hW with h1 | h1
      · exact h1
      · exact absurd ((vector3d_eq_zero_iff _).mpr h1.symm) hw
    nlinarith [mul_pos hpos (mul_pos hh2 hW2)]

/-- Witness for C20: the simulation object after `init`, `setRefSignal (0, 1, 0, 0)` and
one step, where `w_c_ = (0.9 π, 0, 0)` and `q_c_` is the identity. -/
theorem generateCommandSignal_norm_scaling_witness :
    Sim.halfTurnExample.time_step_ ≠ 0 ∧ Sim.halfTurnExample.w_c_ ≠ 0 ∧
    Sim.halfTurnExample.q_c_ ≠ ⟨0, 0, 0, 0⟩ ∧
    Sim.halfTurnExample.q_c_.norm
      < (Sim.generateCommandSignal Sim.halfTurnExample).q_c_.norm :=
  have h1 : Sim.halfTurnExample.time_step_ ≠ 0 := by
    have h : Sim.halfTurnExample.time_step_ = (10 : ℝ) ^ (-3 : ℤ) := rfl
    rw [h]
    norm_num
  have h2 : Sim.halfTurnExample.w_c_ ≠ 0 := by
    intro h
    have h0 := congrFun h 0
    rw [halfTurnExample_w_c] at h0
    have hpi := Real.pi_pos
    simp at h0
    linarith
  have h3 : Sim.halfTurnExample.q_c_ ≠ ⟨0, 0, 0, 0⟩ := by
    rw [halfTurnExample_q_c]
    simp [Quaterniond.Identity]
  ⟨h1, h2, h3, (generateCommandSignal_norm_scaling Sim.halfTurnExample).2.2 h1 h2 h3⟩

/-! ## Command generator: the 30 degree yaw scenario -/

theorem arctan_nonneg_of_nonneg (x : ℝ) (hx : 0 ≤ x) : 0 ≤ Real.arctan x := by
  have h := Real.arctan_strictMono.monotone hx
  rwa [Real.arctan_zero] at h

theorem arctan_le_self_of_nonneg (x : ℝ) (hx : 0 ≤ x) : Real.arctan x ≤ x := by
  have h := Real.le_tan (arctan_nonneg_of_nonneg x hx) (Real.arctan_lt_pi_div_two x)
  rwa [Real.tan_arctan] at h

theorem sub_cube_le_arctan (x : ℝ) (hx : 0 ≤ x) (hx1 : x ≤ 1) :
    x - x ^ 3 / 2 ≤ Real.arctan x := by
  have h1 : Real.sin (Real.arctan x) ≤ Real.arctan x :=
    Real.sin_le (arctan_nonneg_of_nonneg x hx)
  rw [Real.sin_arctan] at h1
  have hS0 : 0 ≤ 1 + x ^ 2 := by positivity
  have hSsq : Real.sqrt (1 + x ^ 2) ^ 2 = 1 + x ^ 2 := Real.sq_sqrt hS0
  have hSpos : 0 < Real.sqrt (1 + x ^ 2) := Real.sqrt_pos.mpr (by positivity)
  have hSle : Real.sqrt (1 + x ^ 2) ≤ 1 + x ^ 2 / 2 := by
    apply Real.sqrt_le_iff.mpr
    constructor
    · positivity
    · nlinarith [sq_nonneg (x ^ 2)]
  have hx2 : x ^ 2 ≤ 1 := by nlinarith
  have h2 : x - x ^ 3 / 2 ≤ x / Real.sqrt (1 + x ^ 2) := by
    rw [le_div_iff₀ hSpos]
    have h3 : (1 - x ^ 2 / 2) * Real.sqrt (1 + x ^ 2) ≤ (1 - x ^ 2 / 2) * (1 + x ^ 2 / 2) :=
      mul_le_mul_of_nonneg_left hSle (by linarith)
    have h4 : (1 - x ^ 2 / 2) * (1 + x ^ 2 / 2) ≤ 1 := by nlinarith [sq_nonneg (x ^ 2)]
    have h5 : (x - x ^ 3 / 2) * Real.sqrt (1 + x ^ 2)
        = x * ((1 - x ^ 2 / 2) * Real.sqrt (1 + x ^ 2)) := by ring
    rw [h5]
    calc x * ((1 - x ^ 2 / 2) * Real.sqrt (1 + x ^ 2)) ≤ x * 1 :=
          mul_le_mul_of_nonneg_left (le_trans h3 h4) hx
      _ = x := mul_one x
  exact le_trans h2 h1

/-- One step of the scenario in angle coordinates keeps the yaw rate non-negative and
the error non-increasing, and carries a lower and an upper envelope along. -/
theorem yaw_step_bounds (d ω N p m : ℝ) (hω : 0 ≤ ω) (hd : d ≤ Real.pi / 6) (hN : 0 ≤ N)
    (hp : 0 ≤ p) (hm : 0 ≤ m)
    (hV : p * (5 * Real.pi) ≤ 30 * d - ω)
    (hL : p * (Real.pi / 6) * (1 + N * (3 / 97)) ≤ d)
    (hU : d ≤ (5236 / 10000 + 161 / 10000 * N) * m)
    (hW : 30 * d - ω ≤ (15708 / 1000 + 242 / 100000 * N) * m) :
    0 ≤ 0.94 * ω + 0.9 * d ∧
    p * (97 / 100) * (5 * Real.pi)
      ≤ 30 * (d - 2 * Real.arctan (ω / 2000)) - (0.94 * ω + 0.9 * d) ∧
    p * (97 / 100) * (Real.pi / 6) * (1 + (N + 1) * (3 / 97))
      ≤ d - 2 * Real.arctan (ω / 2000) ∧
    d - 2 * Real.arctan (ω / 2000) ≤ d ∧
    d - 2 * Real.arctan (ω / 2000)
      ≤ (5236 / 10000 + 161 / 10000 * (N + 1)) * (m * (4851 / 5000)) ∧
    30 * (d - 2 * Real.arctan (ω / 2000)) - (0.94 * ω + 0.9 * d)
      ≤ (15708 / 1000 + 242 / 100000 * (N + 1)) * (m * (4851 / 5000)) := by
  have hpi := Real.pi_pos
  have hpi2 : Real.pi < 3.1416 := by linarith [Real.pi_lt_d6]
  have hpN : 0 ≤ p * N := mul_nonneg hp hN
  have hd0 : 0 ≤ d := by
    have : 0 ≤ p * (Real.pi / 6) * (1 + N * (3 / 97)) := by positivity
    linarith
  have hV0 : 0 ≤ 30 * d - ω := by
    have : 0 ≤ p * (5 * Real.pi) := by positivity
    linarith
  have hd1 : d ≤ 0.5236 := by linarith
  have hx0 : 0 ≤ ω / 2000 := by positivity
  have hx1 : ω / 2000 ≤ 1 := by linarith
  have ha0 := arctan_nonneg_of_nonneg _ hx0
  have ha1 := arctan_le_self_of_nonneg _ hx0
  have ha2 := sub_cube_le_arctan _ hx0 hx1
  have hcube : (ω / 2000) ^ 3 ≤ 1 / 1000000 * d := by
    have h1 : ω ^ 3 ≤ (30 * d) ^ 3 := pow_le_pow_left₀ hω (by linarith) 3
    have h2 : d ^ 3 ≤ 0.5236 ^ 2 * d := by
      have : d ^ 2 ≤ 0.5236 ^ 2 := pow_le_pow_left₀ hd0 hd1 2
      nlinarith
    have h3 : (ω / 2000) ^ 3 = ω ^ 3 / 8000000000 := by ring
    rw [h3]
    nlinarith
  have hNm : 0 ≤ N * m := mul_nonneg hN hm
  refine ⟨by positivity, ?_, ?_, ?_, ?_, ?_⟩
  · linarith
  · linarith
  · linarith
  · linarith
  · linarith

/-- Bounds on the scenario in angle coordinates, for every step count `n`: the yaw rate
stays in `[0, 30 d]`, and the error `d` lies between the envelope of the linear
critically damped filter and a slightly slower one. -/
theorem yawSeq_bounds (n : ℕ) :
    0 ≤ (Sim.yawSeq n).2 ∧
    (97 / 100 : ℝ) ^ n * (5 * Real.pi) ≤ 30 * (Sim.yawSeq n).1 - (Sim.yawSeq n).2 ∧
    (97 / 100 : ℝ) ^ n * (Real.pi / 6) * (1 + n * (3 / 97)) ≤ (Sim.yawSeq n).1 ∧
    (Sim.yawSeq n).1 ≤ Real.pi / 6 ∧
    (Sim.yawSeq n).1 ≤ (5236 / 10000 + 161 / 10000 * n) * (4851 / 5000 : ℝ) ^ n ∧
    30 * (Sim.yawSeq n).1 - (Sim.yawSeq n).2
      ≤ (15708 / 1000 + 242 / 100000 * n) * (4851 / 5000 : ℝ) ^ n := by
  induction n with
  | zero =>
    have hpi := Real.pi_pos
    have hpi2 : Real.pi < 3.1416 := by linarith [Real.pi_lt_d6]
    simp only [Sim.yawSeq, pow_zero, Nat.cast_zero]
    refine ⟨le_refl _, ?_, ?_, le_refl _, ?_, ?_⟩ <;> linarith
  | succ n ih =>
    obtain ⟨h1, h2, h3, h4, h5, h6⟩ := ih
    have hstep := yaw_step_bounds (Sim.yawSeq n).1 (Sim.yawSeq n).2 n ((97 / 100 : ℝ) ^ n)
      ((4851 / 5000 : ℝ) ^ n) h1 h4 (Nat.cast_nonneg n) (by positivity) (by positivity)
      h2 h3 h5 h6
    obtain ⟨g1, g2, g3, g4, g5, g6⟩ := hstep
    simp only [Sim.yawSeq, pow_succ, Nat.cast_succ]
    exact ⟨g1, g2, g3, le_trans g4 h4, g5, g6⟩

theorem yawSeq_pos (n : ℕ) : 0 < (Sim.yawSeq n).1 := by
  have h := (yawSeq_bounds n).2.2.1
  have hpi := Real.pi_pos
  have : 0 < (97 / 100 : ℝ) ^ n * (Real.pi / 6) * (1 + n * (3 / 97)) := by positivity
  linarith

theorem yawSeq_antitone_step (n : ℕ) : (Sim.yawSeq (n + 1)).1 ≤ (Sim.yawSeq n).1 := by
  have h := arctan_nonneg_of_nonneg ((Sim.yawSeq n).2 / 2000)
    (div_nonneg (yawSeq_bounds n).1 (by norm_num))
  simp only [Sim.yawSeq]
  linarith

theorem yawSeq_antitone (n k : ℕ) : (Sim.yawSeq (n + k)).1 ≤ (Sim.yawSeq n).1 := by
  induction k with
  | zero => exact le_refl _
  | succ k ih => exact le_trans (yawSeq_antitone_step (n + k)) ih

theorem yawSeq_167_lower : 199 / 10000 < (Sim.yawSeq 167).1 := by
  have h := (yawSeq_bounds 167).2.2.1
  have hpi : 3.14 < Real.pi := Real.pi_gt_d2
  have hc : (0.00617 : ℝ) < (97 / 100 : ℝ) ^ 167 := by norm_num
  have h2 : (0.00617 : ℝ) * (3.14 / 6) * (1 + 167 * (3 / 97))
      ≤ (97 / 100 : ℝ) ^ 167 * (Real.pi / 6) * (1 + (167 : ℕ) * (3 / 97)) := by
    have e1 : (0.00617 : ℝ) * (3.14 / 6) ≤ (97 / 100 : ℝ) ^ 167 * (Real.pi / 6) :=
      mul_le_mul hc.le (by linarith) (by norm_num) (by positivity)
    have e2 : (0 : ℝ) ≤ 1 + (167 : ℕ) * (3 / 97) := by positivity
    have e3 := mul_le_mul_of_nonneg_right e1 e2
    push_cast at e3 ⊢
    exact e3
  have h3 : (199 / 10000 : ℝ) < (0.00617 : ℝ) * (3.14 / 6) * (1 + 167 * (3 / 97)) := by
    norm_num
  linarith

theorem yawSeq_167_upper : (Sim.yawSeq 167).1 ≤ 21 / 1000 := by
  have h := (yawSeq_bounds 167).2.2.2.2.1
  have hc : (5236 / 10000 + 161 / 10000 * ((167 : ℕ) : ℝ)) * (4851 / 5000 : ℝ) ^ 167
      ≤ 21 / 1000 := by norm_num
  linarith

theorem yawSeq_300_upper : (Sim.yawSeq 300).1 ≤ 1 / 1000 := by
  have h := (yawSeq_bounds 300).2.2.2.2.1
  have hc : (5236 / 10000 + 161 / 10000 * ((300 : ℕ) : ℝ)) * (4851 / 5000 : ℝ) ^ 300
      ≤ 1 / 1000 := by norm_num
  linarith

/-- The angle and the logarithm of a yaw-only quaternion `c (cos θ, 0, 0, -sin θ)` with
`c > 0` and `0 ≤ θ < π/2`. -/
theorem quat_log_v_yaw (c θ : ℝ) (hc : 0 < c) (h0 : 0 ≤ θ) (h1 : θ < Real.pi / 2) :
    quat_plus_map (⟨c * Real.cos θ, 0, 0, -(c * Real.sin θ)⟩ : Quaterniond ℝ)
      = ⟨c * Real.cos θ, 0, 0, -(c * Real.sin θ)⟩ ∧
    (AngleAxis.ofQuaternion ⟨c * Real.cos θ, 0, 0, -(c * Real.sin θ)⟩).angle = 2 * θ ∧
    quat_log_v ⟨c * Real.cos θ, 0, 0, -(c * Real.sin θ)⟩ = ![0, 0, -θ] := by
  have hpi := Real.pi_pos
  have hcos : 0 < Real.cos θ := Real.cos_pos_of_mem_Ioo ⟨by linarith, h1⟩
  have hsin : 0 ≤ Real.sin θ := Real.sin_nonneg_of_nonneg_of_le_pi h0 (by linarith)
  have hw : 0 < c * Real.cos θ := mul_pos hc hcos
  have hn : Real.sqrt (0 * 0 + 0 * 0 + -(c * Real.sin θ) * -(c * Real.sin θ))
      = c * Real.sin θ := by
    rw [show (0 : ℝ) * 0 + 0 * 0 + -(c * Real.sin θ) * -(c * Real.sin θ)
      = (c * Real.sin θ) * (c * Real.sin θ) by ring]
    exact Real.sqrt_mul_self (mul_nonneg hc.le hsin)
  refine ⟨quat_plus_map_of_nonneg _ hw.le, ?_⟩
  by_cases hs : Real.sin θ = 0
  · have hθ : θ = 0 :=
      (Real.sin_eq_zero_iff_of_lt_of_lt (by linarith) (by linarith)).mp hs
    have hn0 : ¬ (c * Real.sin θ ≠ 0) := by simp [hs]
    constructor
    · simp only [AngleAxis.ofQuaternion, hn, if_neg hn0]
      rw [hθ]
      ring
    · simp only [quat_log_v, AngleAxis.ofQuaternion, hn, if_neg hn0]
      rw [hθ]
      ext i
      fin_cases i <;> simp
  · have hn0 : c * Real.sin θ ≠ 0 := mul_ne_zero hc.ne' hs
    have hat : atan2 (c * Real.sin θ) |c * Real.cos θ| = θ := by
      rw [abs_of_pos hw, mul_comm c (Real.sin θ), mul_comm c (Real.cos θ)]
      exact atan2_mul_sin_cos c θ hc (by linarith) (by linarith)
    have hangle : (AngleAxis.ofQuaternion ⟨c * Real.cos θ, 0, 0, -(c * Real.sin θ)⟩).angle
        = 2 * θ := by
      simp only [AngleAxis.ofQuaternion, hn, if_pos hn0, hat]
    refine ⟨hangle, ?_⟩
    have haxis : (AngleAxis.ofQuaternion ⟨c * Real.cos θ, 0, 0, -(c * Real.sin θ)⟩).axis
        = ![0, 0, -1] := by
      simp only [AngleAxis.ofQuaternion, hn, if_pos hn0, if_neg (not_lt.mpr hw.le)]
      ext i
      fin_cases i
      · simp [Quaterniond.vec]
      · simp [Quaterniond.vec]
      · simp [Quaterniond.vec]
        rw [neg_div, div_self hn0]
    simp only [quat_log_v]
    rw [hangle, haxis]
    ext i
    fin_cases i <;> simp

theorem YawState_q_rc (s : Sim.State ℝ) (ρ d ω : ℝ) (h : Sim.YawState s ρ d ω) :
    s.q_r_.conjugate.mul s.q_c_
      = ⟨ρ * Real.cos (d / 2), 0, 0, -(ρ * Real.sin (d / 2))⟩ := by
  have e : d / 2 = Real.pi / 12 - (Real.pi / 12 - d / 2) := by ring
  have hcos : Real.cos (d / 2)
      = Real.cos (Real.pi / 12) * Real.cos (Real.pi / 12 - d / 2)
        + Real.sin (Real.pi / 12) * Real.sin (Real.pi / 12 - d / 2) := by
    conv_lhs => rw [e]
    exact Real.cos_sub _ _
  have hsin : Real.sin (d / 2)
      = Real.sin (Real.pi / 12) * Real.cos (Real.pi / 12 - d / 2)
        - Real.cos (Real.pi / 12) * Real.sin (Real.pi / 12 - d / 2) := by
    conv_lhs => rw [e]
    exact Real.sin_sub _ _
  rw [h.q_r, h.q_c, hcos, hsin]
  simp only [Quaterniond.conjugate, Quaterniond.mul, Quaterniond.mk.injEq]
  refine ⟨?_, ?_, ?_, ?_⟩ <;> ring

theorem YawState_orientationError (s : Sim.State ℝ) (ρ d ω : ℝ) (h : Sim.YawState s ρ d ω)
    (hρ : 0 < ρ) (hd0 : 0 ≤ d) (hd1 : d < Real.pi) : Sim.orientationError s = d := by
  unfold Sim.orientationError
  rw [YawState_q_rc s ρ d ω h]
  obtain ⟨h1, h2, _⟩ := quat_log_v_yaw ρ (d / 2) hρ (by linarith) (by linarith)
  rw [h1, h2]
  ring

theorem YawState_step (s : Sim.State ℝ) (ρ d ω : ℝ) (h : Sim.YawState s ρ d ω)
    (hρ : 0 < ρ) (hd0 : 0 ≤ d) (hd1 : d < Real.pi) :
    Sim.YawState (Sim.generateCommandSignal s) (ρ * Real.sqrt (1 + (ω / 2000) ^ 2))
      (d - 2 * Real.arctan (ω / 2000)) (0.94 * ω + 0.9 * d) := by
  obtain ⟨h1, _, h3⟩ := quat_log_v_yaw ρ (d / 2) hρ (by linarith) (by linarith)
  have hrc := YawState_q_rc s ρ d ω h
  have hS : Real.sqrt (1 + (ω / 2000) ^ 2) ≠ 0 :=
    (Real.sqrt_pos.mpr (by positivity)).ne'
  refine ⟨h.time_step, h.w_0, h.damping, h.q_r, ?_, ?_⟩
  · have e : Real.pi / 12 - (d - 2 * Real.arctan (ω / 2000)) / 2
        = (Real.pi / 12 - d / 2) + Real.arctan (ω / 2000) := by ring
    rw [e, Real.cos_add, Real.sin_add, Real.cos_arctan, Real.sin_arctan]
    have hq : (Sim.generateCommandSignal s).q_c_
        = ⟨s.q_c_.w + s.time_step_ * (s.q_c_.mul ⟨0, ((0.5 : ℝ) • s.w_c_) 0,
              ((0.5 : ℝ) • s.w_c_) 1, ((0.5 : ℝ) • s.w_c_) 2⟩).w,
            (s.q_c_.vec + s.time_step_ • (s.q_c_.mul ⟨0, ((0.5 : ℝ) • s.w_c_) 0,
              ((0.5 : ℝ) • s.w_c_) 1, ((0.5 : ℝ) • s.w_c_) 2⟩).vec) 0,
            (s.q_c_.vec + s.time_step_ • (s.q_c_.mul ⟨0, ((0.5 : ℝ) • s.w_c_) 0,
              ((0.5 : ℝ) • s.w_c_) 1, ((0.5 : ℝ) • s.w_c_) 2⟩).vec) 1,
            (s.q_c_.vec + s.time_step_ • (s.q_c_.mul ⟨0, ((0.5 : ℝ) • s.w_c_) 0,
              ((0.5 : ℝ) • s.w_c_) 1, ((0.5 : ℝ) • s.w_c_) 2⟩).vec) 2⟩ := rfl
    rw [hq, h.q_c, h.w_c, h.time_step]
    simp only [Quaterniond.mul, Quaterniond.vec, Quaterniond.mk.injEq, Pi.add_apply,
      Pi.smul_apply, smul_eq_mul, Matrix.cons_val_zero, Matrix.cons_val_one,
      Matrix.cons_val_two, Matrix.head_cons, Matrix.tail_cons]
    refine ⟨?_, ?_, ?_, ?_⟩
    · field_simp
      ring
    · ring
    · ring
    · field_simp
      ring
  · have hw : (Sim.generateCommandSignal s).w_c_
        = s.w_c_ + s.time_step_ •
          ((-2 * s.cmd_w_0_ ^ 2) • quat_log_v (quat_plus_map (s.q_r_.conjugate.mul s.q_c_))
            - (2 * s.cmd_damping_ * s.cmd_w_0_) • s.w_c_) := rfl
    rw [hw, hrc, h1, h3, h.w_c, h.time_step, h.w_0, h.damping]
    ext i
    fin_cases i
    · simp
    · simp
    · simp
      ring

theorem yawScenario_succ (n : ℕ) :
    Sim.yawScenario (n + 1) = Sim.generateCommandSignal (Sim.yawScenario n) := by
  unfold Sim.yawScenario
  rw [Function.iterate_succ_apply']

theorem yawScenario_zero_YawState :
    Sim.YawState (Sim.yawScenario 0) 1 (Real.pi / 6) 0 := by
  refine ⟨?_, ?_, ?_, ?_, ?_, ?_⟩
  · show (10 : ℝ) ^ (-3 : ℤ) = 1 / 1000
    norm_num
  · show (30.0 : ℝ) = 30
    norm_num
  · show (1.0 : ℝ) = 1
    norm_num
  · show EulerToQuat (Real.pi / 6) 0 0 = _
    have e : Real.pi / 6 * 0.5 = Real.pi / 12 := by ring
    simp [EulerToQuat, e]
  · show (Quaterniond.Identity : Quaterniond ℝ) = _
    have e : Real.pi / 12 - Real.pi / 6 / 2 = 0 := by ring
    simp [Quaterniond.Identity, e]
  · show (0 : Vector3d ℝ) = _
    ext i
    fin_cases i <;> rfl

/-- Every object of the scenario is in polar form, with error and yaw rate given by the
scenario in angle coordinates. -/
theorem yawScenario_YawState (n : ℕ) :
    ∃ ρ : ℝ, 0 < ρ ∧ Sim.YawState (Sim.yawScenario n) ρ (Sim.yawSeq n).1 (Sim.yawSeq n).2 := by
  induction n with
  | zero => exact ⟨1, one_pos, yawScenario_zero_YawState⟩
  | succ n ih =>
    obtain ⟨ρ, hρ, h⟩ := ih
    have hpi := Real.pi_pos
    have hd0 := (yawSeq_pos n).le
    have hd1 : (Sim.yawSeq n).1 < Real.pi := by
      have := (yawSeq_bounds n).2.2.2.1
      linarith
    refine ⟨ρ * Real.sqrt (1 + ((Sim.yawSeq n).2 / 2000) ^ 2),
      mul_pos hρ (Real.sqrt_pos.mpr (by positivity)), ?_⟩
    rw [yawScenario_succ]
    exact YawState_step _ ρ _ _ h hρ hd0 hd1

theorem yawScenario_error (n : ℕ) :
    Sim.orientationError (Sim.yawScenario n) = (Sim.yawSeq n).1 := by
  obtain ⟨ρ, hρ, h⟩ := yawScenario_YawState n
  have hpi := Real.pi_pos
  have hd1 : (Sim.yawSeq n).1 < Real.pi := by
    have := (yawSeq_bounds n).2.2.2.1
    linarith
  exact YawState_orientationError _ ρ _ _ h hρ (yawSeq_pos n).le hd1

theorem yawScenario_w_c (n : ℕ) :
    (Sim.yawScenario n).w_c_ = ![0, 0, (Sim.yawSeq n).2] := by
  obtain ⟨ρ, _, h⟩ := yawScenario_YawState n
  exact h.w_c

theorem yawScenario_q_rc_z (n : ℕ) :
    ((Sim.yawScenario n).q_r_.conjugate.mul (Sim.yawScenario n).q_c_).z < 0 := by
  obtain ⟨ρ, hρ, h⟩ := yawScenario_YawState n
  rw [YawState_q_rc _ ρ _ _ h]
  have hpi := Real.pi_pos
  have hd0 := yawSeq_pos n
  have hd1 := (yawSeq_bounds n).2.2.2.1
  have hs : 0 < Real.sin ((Sim.yawSeq n).1 / 2) :=
    Real.sin_pos_of_pos_of_lt_pi (by linarith) (by linarith)
  show -(ρ * Real.sin ((Sim.yawSeq n).1 / 2)) < 0
  have := mul_pos hρ hs
  linarith

theorem yawSeq_rate_pos (n : ℕ) (hn : 1 ≤ n) : 0 < (Sim.yawSeq n).2 := by
  obtain ⟨k, rfl⟩ : ∃ k, n = k + 1 := ⟨n - 1, by omega⟩
  have h1 := (yawSeq_bounds k).1
  have h2 := yawSeq_pos k
  simp only [Sim.yawSeq]
  linarith

theorem yawSeq_strict_step (n : ℕ) (hn : 1 ≤ n) : (Sim.yawSeq (n + 1)).1 < (Sim.yawSeq n).1 := by
  have h := yawSeq_rate_pos n hn
  have h2 : Real.arctan 0 < Real.arctan ((Sim.yawSeq n).2 / 2000) :=
    Real.arctan_strictMono (by positivity)
  rw [Real.arctan_zero] at h2
  simp only [Sim.yawSeq]
  linarith

/-- C17 as stated fails at 5 time constants: after 167 steps of the scenario the
orientation error is still above `0.0199` rad, so it is not within `1e-3` rad. -/
theorem yawScenario_167_error :
    199 / 10000 < Sim.orientationError (Sim.yawScenario 167) ∧
    ¬ Sim.orientationError (Sim.yawScenario 167) ≤ 1 / 1000 := by
  have h := yawSeq_167_lower
  rw [yawScenario_error]
  constructor
  · exact h
  · intro h2
    linarith

/-- C17, amended: in the scenario (`q_r_` a 30 degree yaw, damping `1`, bandwidth `30`,
step `0.001`, command starting at identity with zero velocity), after every number `n` of
`generateCommandSignal` steps the orientation error is positive, does not increase at
the next step and strictly decreases from the second step on, the command never passes
the reference (the z part of `conj(q_r_) * q_c_` stays negative), and `w_c_` is
`(0, 0, ω)` with `0 ≤ ω ≤ 30 * error`; after at least 167 steps (5 time constants) the
error is within `0.021` rad, and after at least 300 steps it is within `1e-3` rad. -/
theorem yawScenario_convergence (n : ℕ) :
    (0 < Sim.orientationError (Sim.yawScenario n) ∧
      Sim.orientationError (Sim.yawScenario (n + 1))
        ≤ Sim.orientationError (Sim.yawScenario n) ∧
      (1 ≤ n → Sim.orientationError (Sim.yawScenario (n + 1))
        < Sim.orientationError (Sim.yawScenario n)) ∧
      ((Sim.yawScenario n).q_r_.conjugate.mul (Sim.yawScenario n).q_c_).z < 0) ∧
    ((Sim.yawScenario n).w_c_ 0 = 0 ∧ (Sim.yawScenario n).w_c_ 1 = 0 ∧
      0 ≤ (Sim.yawScenario n).w_c_ 2 ∧
      (Sim.yawScenario n).w_c_ 2 ≤ 30 * Sim.orientationError (Sim.yawScenario n)) ∧
    (167 ≤ n → Sim.orientationError (Sim.yawScenario n) ≤ 21 / 1000) ∧
    (300 ≤ n → Sim.orientationError (Sim.yawScenario n) ≤ 1 / 1000) := by
  have hb := yawSeq_bounds n
  have hpi := Real.pi_pos
  refine ⟨⟨?_, ?_, ?_, yawScenario_q_rc_z n⟩, ⟨?_, ?_, ?_, ?_⟩, ?_, ?_⟩
  · rw [yawScenario_error]
    exact yawSeq_pos n
  · rw [yawScenario_error, yawScenario_error]
    exact yawSeq_antitone_step n
  · intro hn
    rw [yawScenario_error, yawScenario_error]
    exact yawSeq_strict_step n hn
  · rw [yawScenario_w_c]
    rfl
  · rw [yawScenario_w_c]
    rfl
  · rw [yawScenario_w_c]
    exact hb.1
  · rw [yawScenario_w_c, yawScenario_error]
    have h2 : 0 ≤ 30 * (Sim.yawSeq n).1 - (Sim.yawSeq n).2 :=
      le_trans (by positivity) hb.2.1
    show (Sim.yawSeq n).2 ≤ 30 * (Sim.yawSeq n).1
    linarith
  · intro hn
    obtain ⟨k, rfl⟩ : ∃ k, n = 167 + k := ⟨n - 167, by omega⟩
    rw [yawScenario_error]
    exact le_trans (yawSeq_antitone 167 k) yawSeq_167_upper
  · intro hn
    obtain ⟨k, rfl⟩ : ∃ k, n = 300 + k := ⟨n - 300, by omega⟩
    rw [yawScenario_error]
    exact le_trans (yawSeq_antitone 300 k) yawSeq_300_upper

/-- Witness for C17 (amended): 300 steps of the scenario. -/
theorem yawScenario_convergence_witness :
    Sim.orientationError (Sim.yawScenario 300) ≤ 1 / 1000 ∧
    0 < Sim.orientationError (Sim.yawScenario 300) :=
  ⟨(yawScenario_convergence 300).2.2.2 (le_refl 300), (yawScenario_convergence 300).1.1⟩

/-! ## Command generator: the acceleration against the spec's shortest rotation -/

theorem shortestRotation_of_nonneg {α : Type} [LinearOrderedField α] (q : Quaterniond α)
    (h : 0 ≤ q.w) : shortestRotation q = quat_plus_map q := by
  simp [shortestRotation, quat_plus_map, h]

theorem sqrt_sixteen_twentyfifths (x : ℝ) (hx : x * x = 16 / 25) :
    Real.sqrt (x * x + 0 * 0 + 0 * 0) = 4 / 5 := by
  rw [hx, show (16 / 25 : ℝ) + 0 * 0 + 0 * 0 = (4 / 5) * (4 / 5) by norm_num]
  exact Real.sqrt_mul_self (by norm_num)

theorem quat_log_v_long_way_code :
    quat_log_v ⟨3/5, 4/5, 0, 0⟩ = ![atan2 (4/5) (3/5), 0, 0] := by
  have hn := sqrt_sixteen_twentyfifths (4/5) (by norm_num)
  have hne : (4 / 5 : ℝ) ≠ 0 := by norm_num
  have habs : |(3 / 5 : ℝ)| = 3 / 5 := abs_of_pos (by norm_num)
  have hw : ¬ ((3 / 5 : ℝ) < 0) := by norm_num
  simp only [quat_log_v, AngleAxis.ofQuaternion, hn, if_pos hne, habs, if_neg hw,
    Quaterniond.vec]
  ext i
  fin_cases i <;> simp

theorem quat_log_v_long_way_spec :
    quat_log_v ⟨3/5, -(4/5), 0, 0⟩ = ![-atan2 (4/5) (3/5), 0, 0] := by
  have hn := sqrt_sixteen_twentyfifths (-(4/5)) (by norm_num)
  have hne : (4 / 5 : ℝ) ≠ 0 := by norm_num
  have habs : |(3 / 5 : ℝ)| = 3 / 5 := abs_of_pos (by norm_num)
  have hw : ¬ ((3 / 5 : ℝ) < 0) := by norm_num
  simp only [quat_log_v, AngleAxis.ofQuaternion, hn, if_pos hne, habs, if_neg hw,
    Quaterniond.vec]
  ext i
  fin_cases i <;> simp

theorem atan2_long_way_pos : 0 < atan2 (4/5) (3/5) := by
  unfold atan2
  rcases lt_or_eq_of_le (Complex.arg_nonneg_iff.mpr
    (show (0 : ℝ) ≤ (⟨3/5, 4/5⟩ : ℂ).im by norm_num)) with h | h
  · exact h
  · exfalso
    have h2 := (Complex.arg_eq_zero_iff.mp h.symm).2
    norm_num at h2

theorem longWayExample_q_rc :
    Sim.longWayExample.q_r_.conjugate.mul Sim.longWayExample.q_c_ = ⟨-(3/5), 4/5, 0, 0⟩ := by
  show (Quaterniond.conjugate (⟨-3/5, -4/5, 0, 0⟩ : Quaterniond ℝ)).mul Quaterniond.Identity
    = ⟨-(3/5), 4/5, 0, 0⟩
  simp only [Quaterniond.conjugate, Quaterniond.mul, Quaterniond.Identity,
    Quaterniond.mk.injEq]
  refine ⟨?_, ?_, ?_, ?_⟩ <;> norm_num

/-- C16, evaluated on the step after `init` and `setRefSignal (-3/5, -4/5, 0, 0)`, where
`q_rc = conj(q_r_) * q_c_ = (-3/5, 4/5, 0, 0)`: the code takes
`quat_plus_map q_rc = (3/5, 4/5, 0, 0)` and stores the acceleration `(-1800 θ, 0, 0)` with
`θ = atan2(4/5, 3/5) > 0`, while the claim's formula with the shortest rotation
`-q_rc = (3/5, -4/5, 0, 0)` gives `(1800 θ, 0, 0)`: the opposite sign. -/
theorem generateCommandSignal_acceleration_long_way :
    quat_plus_map (Sim.longWayExample.q_r_.conjugate.mul Sim.longWayExample.q_c_)
      = ⟨3/5, 4/5, 0, 0⟩ ∧
    shortestRotation (Sim.longWayExample.q_r_.conjugate.mul Sim.longWayExample.q_c_)
      = ⟨3/5, -(4/5), 0, 0⟩ ∧
    0 < atan2 (4/5) (3/5) ∧
    (Sim.generateCommandSignal Sim.longWayExample).w_c_dot_
      = ![-1800 * atan2 (4/5) (3/5), 0, 0] ∧
    (-2 * Sim.longWayExample.cmd_w_0_ ^ 2) •
        quat_log_v (shortestRotation
          (Sim.longWayExample.q_r_.conjugate.mul Sim.longWayExample.q_c_))
      - (2 * Sim.longWayExample.cmd_damping_ * Sim.longWayExample.cmd_w_0_) •
        Sim.longWayExample.w_c_
      = ![1800 * atan2 (4/5) (3/5), 0, 0] ∧
    (Sim.generateCommandSignal Sim.longWayExample).w_c_dot_
      ≠ (-2 * Sim.longWayExample.cmd_w_0_ ^ 2) •
          quat_log_v (shortestRotation
            (Sim.longWayExample.q_r_.conjugate.mul Sim.longWayExample.q_c_))
        - (2 * Sim.longWayExample.cmd_damping_ * Sim.longWayExample.cmd_w_0_) •
          Sim.longWayExample.w_c_ := by
  have hplus : quat_plus_map (⟨-(3/5), 4/5, 0, 0⟩ : Quaterniond ℝ) = ⟨3/5, 4/5, 0, 0⟩ := by
    rw [quat_plus_map_of_neg _ (by norm_num)]
    simp
  have hshort : shortestRotation (⟨-(3/5), 4/5, 0, 0⟩ : Quaterniond ℝ)
      = ⟨3/5, -(4/5), 0, 0⟩ := by
    have h : ¬ ((-(3/5) : ℝ) ≥ 0) := by norm_num
    simp [shortestRotation, Quaterniond.neg, h]
  have hw0 : Sim.longWayExample.cmd_w_0_ = 30 := by
    show (30.0 : ℝ) = 30
    norm_num
  have hz : Sim.longWayExample.cmd_damping_ = 1 := by
    show (1.0 : ℝ) = 1
    norm_num
  have hwc : Sim.longWayExample.w_c_ = 0 := rfl
  have hcode : (Sim.generateCommandSignal Sim.longWayExample).w_c_dot_
      = ![-1800 * atan2 (4/5) (3/5), 0, 0] := by
    show (-2 * Sim.longWayExample.cmd_w_0_ ^ 2) •
        quat_log_v (quat_plus_map
          (Sim.longWayExample.q_r_.conjugate.mul Sim.longWayExample.q_c_))
      - (2 * Sim.longWayExample.cmd_damping_ * Sim.longWayExample.cmd_w_0_) •
        Sim.longWayExample.w_c_ = _
    rw [longWayExample_q_rc, hplus, quat_log_v_long_way_code, hw0, hz, hwc]
    ext i
    fin_cases i
    · simp
      norm_num
    · simp
    · simp
  have hspec : (-2 * Sim.longWayExample.cmd_w_0_ ^ 2) •
        quat_log_v (shortestRotation
          (Sim.longWayExample.q_r_.conjugate.mul Sim.longWayExample.q_c_))
      - (2 * Sim.longWayExample.cmd_damping_ * Sim.longWayExample.cmd_w_0_) •
        Sim.longWayExample.w_c_
      = ![1800 * atan2 (4/5) (3/5), 0, 0] := by
    rw [longWayExample_q_rc, hshort, quat_log_v_long_way_spec, hw0, hz, hwc]
    ext i
    fin_cases i
    · simp
      norm_num
    · simp
    · simp
  refine ⟨?_, ?_, atan2_long_way_pos, hcode, hspec, ?_⟩
  · rw [longWayExample_q_rc, hplus]
  · rw [longWayExample_q_rc, hshort]
  · rw [hcode, hspec]
    intro h
    have h0 := congrFun h 0
    have hpos := atan2_long_way_pos
    simp at h0
    linarith

end Controller
